import Mathlib

/-!
cctver, the pipeline orchestration layer: `src/pipeline/element.go` and
`src/pipeline/pipeline.go`.

A shallow embedding of the Go package `pipeline`.

* Go pointers (`*Element`, `*gst.Element`, `*gst.Pipeline`, `*glib.MainLoop`, watch
  closures, `PartialPipeline` interface values) are natural-number identifiers.
  `World.heap` maps an `*Element` pointer to the struct it points to, so two
  registrations of the same pointer alias the same descriptor, as in Go.
* The streaming engine (go-gst / go-glib) is external.  Every call into it is
  recorded, in call order, in `World.trace`, and its answer is given by an
  oracle (`Env`) that may depend on the whole history of calls made so far, so
  "every engine behaviour" is a quantification over `Env`.
* The interface `PartialPipeline` is declared outside these files.  A hook is
  given by the `error` it returns and the registrations it makes on the
  container it is handed, both as a function of the state it is invoked in;
  whatever else it does to the engine is covered by recording the invocation in
  the history, on which every later engine answer may depend.
* Logging calls (`zerolog`) have no effect on the state and are left out; the
  `context.Context` argument is only handed through to hooks and is left out.
-/

namespace Cctver

/-! ## Values crossing the engine boundary -/

/-- Go `error` values: `errors.New` / `fmt.Errorf` without `%w` give `text`,
`fmt.Errorf` with `%w` gives `wrap`; engine errors are arbitrary values. -/
inductive Err where
  | text (s : String)
  | wrap (s : String) (inner : Err)
  deriving DecidableEq, Repr

/-- Dynamic values stored in `Properties map[string]interface{}`, tagged with
their Go dynamic type (the type assertions `v.(int)` / `v.(uint)` look at it). -/
inductive Value where
  | null
  | bool (b : Bool)
  | int (n : Int)
  | int64 (n : Int)
  | uint (n : Nat)
  | uint64 (n : Nat)
  | str (s : String)
  deriving DecidableEq, Repr

/-- The fundamental GLib type a `glib.Type` derives from; `t.IsA(glib.TYPE_ENUM)`
and `t.IsA(glib.TYPE_FLAGS)` test it. -/
inductive Fundamental where
  | enum
  | flags
  | other
  deriving DecidableEq, Repr

/-- A `glib.Type` as returned by `GetPropertyType`. -/
structure GType where
  id : Nat
  fundamental : Fundamental
  deriving DecidableEq, Repr

/-- `t.IsA(f)` for a fundamental type `f`. -/
def GType.IsA (t : GType) (f : Fundamental) : Bool :=
  decide (t.fundamental = f)

/-- A `*glib.Value` initialised with `ValueInit(t)` and filled by `SetEnum` or
`SetFlags`. -/
inductive GValue where
  | enum (t : GType) (n : Int)
  | flags (t : GType) (n : Nat)
  deriving DecidableEq, Repr

/-- The `gst.State` constants the package uses. -/
inductive GstState where
  | StateNull
  | StateReady
  | StatePlaying
  deriving DecidableEq, Repr

/-- A `*gst.Message`, by `msg.Type()`: `MessageEOS`, `MessageError` (with the
result of `ParseError` and its debug string), or anything else. -/
inductive Msg where
  | eos
  | error (e : Err) (debug : String)
  | other (text : String)
  deriving DecidableEq, Repr

/-- The four lifecycle hooks of the `PartialPipeline` interface. -/
inductive HookKind where
  | Prepare
  | Build
  | Start
  | Stop
  deriving DecidableEq, Repr

/-- One call that leaves the package: an engine call, a hook invocation on a
registered `PartialPipeline`, or an invocation of a registered watch. -/
inductive Event where
  | newElementWithName (factory name : String)
  | getPropertyType (el : Nat) (k : String)
  | valueInit (t : GType)
  | setPropertyValue (el : Nat) (k : String) (v : GValue)
  | elementSet (el : Nat) (k : String) (v : Value)
  | link (a b : Nat)
  | linkFiltered (a b : Nat) (filter : Nat)
  | unlink (a b : Nat)
  | newPipeline (name : String)
  | pipelineAdd (pl : Nat) (el : Option Nat)
  | busAddWatch (pl : Nat)
  | setState (pl : Nat) (s : GstState)
  | blockSetState (pl : Nat) (s : GstState)
  | loopRun (l : Nat)
  | loopQuit (l : Nat)
  | busMessage (m : Msg)
  | hook (k : HookKind) (id : Nat)
  | watch (id : Nat) (m : Msg)
  deriving DecidableEq, Repr

/-! ## Data model -/

/-- The struct `Element` of `element.go`; `el` is the `*gst.Element` handle,
`none` for `nil`.  `Properties` lists the entries of the Go map in the order the
`range` statement of `Build` visits them (Go leaves that order unspecified, so
every list order is a possible run). -/
structure Element where
  Factory : String
  Name : String
  Properties : List (String × Value)
  el : Option Nat
  deriving DecidableEq, Repr

/-- The struct `Pipeline` of `pipeline.go`.  `elements`, `watches` and
`partials` hold pointers (identifiers); `pipeline` is the `*gst.Pipeline`
handle and `loop` the `*glib.MainLoop`, `none` for `nil`. -/
structure Pipeline where
  name : String
  elements : List Nat
  pipeline : Option Nat
  watches : List Nat
  partials : List Nat
  built : Bool
  loop : Option Nat
  deriving DecidableEq, Repr

/-- The program state: the `Element` structs behind each pointer, the
container, the `is_running` flag of each GLib main loop, and the history of
calls that left the package. -/
structure World where
  heap : Nat → Element
  p : Pipeline
  running : Nat → Bool
  trace : List Event

/-- Record one outgoing call. -/
def World.log (w : World) (ev : Event) : World :=
  { w with trace := w.trace ++ [ev] }

/-- What a hook may do to the container through its exported registration
methods. -/
inductive Registration where
  | AddElements (elements : List Nat)
  | AddWatch (watch : Nat)
  | AddPartialPipeline (p : Nat)
  deriving DecidableEq, Repr

/-- The observable outcome of one hook invocation: the `error` it returns and
the registrations it made on the container it was handed. -/
structure HookResult where
  err : Option Err
  regs : List Registration

/-- The interface `PartialPipeline` (declared outside `src/`; taken as a
parameter): four hooks, each given the owning container. -/
structure PartialPipeline where
  Prepare : World → HookResult
  Build : World → HookResult
  Start : World → HookResult
  Stop : World → HookResult

/-- The hook of the given kind. -/
def PartialPipeline.hook (pp : PartialPipeline) : HookKind → World → HookResult
  | .Prepare => pp.Prepare
  | .Build => pp.Build
  | .Start => pp.Start
  | .Stop => pp.Stop

/-- The environment: the answers of the engine to each call, as a function of
the history of calls before it, the `PartialPipeline` behind each identifier,
and the bus messages the main loop has to deliver when it is run. -/
structure Env where
  NewElementWithName : List Event → String → String → Except Err Nat
  GetPropertyType : List Event → Nat → String → Except Err GType
  ValueInit : List Event → GType → Option Err
  SetPropertyValue : List Event → Nat → String → GValue → Option Err
  ElementSet : List Event → Nat → String → Value → Option Err
  Link : List Event → Nat → Nat → Option Err
  LinkFiltered : List Event → Nat → Nat → Nat → Option Err
  NewPipeline : List Event → String → Except Err Nat
  Add : List Event → Nat → Option Nat → Option Err
  SetState : List Event → Nat → GstState → Option Err
  BusMessages : List Event → List Msg
  hooks : Nat → PartialPipeline

/-- A `for ... range xs` loop whose body returns an `error` and which returns
at the first non-nil one.  The list is the value of the range expression, which
Go evaluates once, before the first iteration. -/
def forEach {α : Type} (body : α → World → Option Err × World) :
    List α → World → Option Err × World
  | [], w => (none, w)
  | x :: xs, w =>
    match body x w with
    | (some err, w1) => (some err, w1)
    | (none, w1) => forEach body xs w1

/-! ## `element.go` -/

/-- The body of the `for k, v := range e.Properties` loop of `Element.Build`,
for the freshly created stage `element`. -/
def Element.setProperty (env : Env) (element : Nat) (kv : String × Value) (w : World) :
    Option Err × World :=
  let k := kv.1
  let v := kv.2
  let w1 := w.log (.getPropertyType element k)
  match env.GetPropertyType w.trace element k with
  | .error err => (some (.wrap ("unable got get " ++ k) err), w1)
  | .ok t =>
    if t.IsA .enum = true then
      let w2 := w1.log (.valueInit t)
      match env.ValueInit w1.trace t with
      | some err => (some err, w2)
      | none =>
        match v with
        | .int n =>
          (env.SetPropertyValue w2.trace element k (.enum t n),
            w2.log (.setPropertyValue element k (.enum t n)))
        | _ => (some (.text ("property " ++ k ++ " expecting an int")), w2)
    else if t.IsA .flags = true then
      let w2 := w1.log (.valueInit t)
      match env.ValueInit w1.trace t with
      | some err => (some err, w2)
      | none =>
        match v with
        | .uint n =>
          (env.SetPropertyValue w2.trace element k (.flags t n),
            w2.log (.setPropertyValue element k (.flags t n)))
        | _ => (some (.text ("property " ++ k ++ " expecting an uint")), w2)
    else
      (env.ElementSet w1.trace element k v, w1.log (.elementSet element k v))

/-- `func (e *Element) Build() error`, on the descriptor behind pointer `e`. -/
def Element.Build (env : Env) (e : Nat) (w : World) : Option Err × World :=
  match (w.heap e).el with
  | some _ => (none, w)
  | none =>
    let w1 := w.log (.newElementWithName (w.heap e).Factory (w.heap e).Name)
    match env.NewElementWithName w.trace (w.heap e).Factory (w.heap e).Name with
    | .error err => (some err, w1)
    | .ok element =>
      match forEach (Element.setProperty env element) (w1.heap e).Properties w1 with
      | (some err, w2) => (some err, w2)
      | (none, w2) =>
        (none, { w2 with heap := Function.update w2.heap e { w2.heap e with el := some element } })

/-- The error of `Link`, `LinkFiltered` and `Unlink` on an un-built side. -/
def errNotBuilt : Err := .text "unable to link un-built elements"

/-- `func (e *Element) Link(other *Element) error`. -/
def Element.Link (env : Env) (e other : Nat) (w : World) : Option Err × World :=
  match (w.heap e).el, (w.heap other).el with
  | some a, some b => (env.Link w.trace a b, w.log (.link a b))
  | _, _ => (some errNotBuilt, w)

/-- `func (e *Element) LinkFiltered(other *Element, filter *gst.Caps) error`. -/
def Element.LinkFiltered (env : Env) (e other : Nat) (filter : Nat) (w : World) :
    Option Err × World :=
  match (w.heap e).el, (w.heap other).el with
  | some a, some b => (env.LinkFiltered w.trace a b filter, w.log (.linkFiltered a b filter))
  | _, _ => (some errNotBuilt, w)

/-- `func (e *Element) Unlink(other *Element) error`. -/
def Element.Unlink (e other : Nat) (w : World) : Option Err × World :=
  match (w.heap e).el, (w.heap other).el with
  | some a, some b => (none, w.log (.unlink a b))
  | _, _ => (some errNotBuilt, w)

/-! ## `pipeline.go` -/

/-- `func (p *Pipeline) AddWatch(watch ...)`. -/
def Pipeline.AddWatch (watch : Nat) (w : World) : World :=
  { w with p := { w.p with watches := w.p.watches ++ [watch] } }

/-- `func (p *Pipeline) AddElements(elements ...*Element)`. -/
def Pipeline.AddElements (elements : List Nat) (w : World) : World :=
  { w with p := { w.p with elements := w.p.elements ++ elements } }

/-- `func (p *Pipeline) AddPartialPipeline(partial PartialPipeline)`. -/
def Pipeline.AddPartialPipeline (pp : Nat) (w : World) : World :=
  { w with p := { w.p with partials := w.p.partials ++ [pp] } }

/-- Perform one registration made by a hook. -/
def Registration.apply : Registration → World → World
  | .AddElements es, w => Pipeline.AddElements es w
  | .AddWatch f, w => Pipeline.AddWatch f w
  | .AddPartialPipeline pp, w => Pipeline.AddPartialPipeline pp w

/-- Perform the registrations made by a hook, in order. -/
def applyRegs : List Registration → World → World
  | [], w => w
  | r :: rs, w => applyRegs rs (r.apply w)

/-- Invoke hook `k` of the registered `PartialPipeline` `id` on the container:
the invocation is recorded, the hook sees the state at that point, makes its
registrations, and returns its `error`. -/
def callHook (env : Env) (k : HookKind) (id : Nat) (w : World) : Option Err × World :=
  let w1 := w.log (.hook k id)
  let r := (env.hooks id).hook k w1
  (r.err, applyRegs r.regs w1)

/-- The body of `for index := range p.elements` in `Pipeline.Build`:
`p.pipeline.Add(p.elements[index].el)`. -/
def Pipeline.addElement (env : Env) (pl : Nat) (e : Nat) (w : World) : Option Err × World :=
  (env.Add w.trace pl (w.heap e).el, w.log (.pipelineAdd pl (w.heap e).el))

/-- `func (p *Pipeline) Build() error`. -/
def Pipeline.Build (env : Env) (w : World) : Option Err × World :=
  if w.p.built = true then (none, w)
  else
    match forEach (callHook env .Prepare) w.p.partials w with
    | (some err, w1) => (some err, w1)
    | (none, w1) =>
      let w2 := w1.log (.newPipeline w1.p.name)
      match env.NewPipeline w1.trace w1.p.name with
      | .error err => (some err, { w2 with p := { w2.p with pipeline := none } })
      | .ok pl =>
        let w3 := { w2 with p := { w2.p with pipeline := some pl } }
        match forEach (Element.Build env) w3.p.elements w3 with
        | (some err, w4) => (some err, w4)
        | (none, w4) =>
          match forEach (Pipeline.addElement env pl) w4.p.elements w4 with
          | (some err, w5) => (some err, w5)
          | (none, w5) =>
            match forEach (callHook env .Build) w5.p.partials w5 with
            | (some err, w6) => (some err, w6)
            | (none, w6) => (none, { w6 with p := { w6.p with built := true } })

/-- `mainLoop.Quit()`: clears the loop's `is_running` flag. -/
def MainLoop.Quit (l : Nat) (w : World) : World :=
  { w.log (.loopQuit l) with running := Function.update w.running l false }

/-- The body of `for _, watch := range p.watches`: `watch(msg)`; the returned
bool is dropped. -/
def callWatch (msg : Msg) (f : Nat) (w : World) : Option Err × World :=
  (none, w.log (.watch f msg))

/-- The closure `Start` installs with `GetPipelineBus().AddWatch`, applied to
one message; `rerr` is the named result of `Start`, which the closure
captures. -/
def Pipeline.onMessage (pl l : Nat) (msg : Msg) (s : Option Err × World) :
    Option Err × World :=
  let w0 := s.2.log (.busMessage msg)
  let s1 : Option Err × World :=
    match msg with
    | .eos => (s.1, MainLoop.Quit l (w0.log (.blockSetState pl .StateNull)))
    | .error e _ => (some e, MainLoop.Quit l w0)
    | .other _ => (s.1, w0)
  (s1.1, (forEach (callWatch msg) s1.2.p.watches s1.2).2)

/-- The GLib main loop delivering the pending bus messages to the installed
watch, one per iteration, for as long as its `is_running` flag is set.  The end
of the list stands for a `Quit` requested from outside the loop. -/
def MainLoop.dispatch (pl l : Nat) : List Msg → Option Err × World → Option Err × World
  | [], s => s
  | m :: ms, s =>
    let s1 := Pipeline.onMessage pl l m s
    if s1.2.running l = true then MainLoop.dispatch pl l ms s1 else s1

/-- `mainLoop.RunError()`: sets `is_running` and iterates until it is cleared. -/
def MainLoop.RunError (env : Env) (pl l : Nat) (s : Option Err × World) : Option Err × World :=
  let w1 := { s.2.log (.loopRun l) with running := Function.update s.2.running l true }
  MainLoop.dispatch pl l (env.BusMessages s.2.trace) (s.1, w1)

/-- How far `Pipeline.Start` gets before the blocking `mainLoop.RunError()`:
it dereferences a nil `p.pipeline` (`panicked`), returns early with an error
(`returned`), or reaches the run loop with the engine pipeline `pl`
(`reached`). -/
inductive Setup where
  | panicked
  | returned (err : Err) (w : World)
  | reached (pl : Nat) (w : World)

/-- `Pipeline.Start` up to, and excluding, `mainLoop.RunError()`. -/
def Pipeline.startSetup (env : Env) (mainLoop : Nat) (w : World) : Setup :=
  match Pipeline.Build env w with
  | (some err, w1) => .returned err w1
  | (none, w1) =>
    let w2 := { w1 with p := { w1.p with loop := some mainLoop } }
    match w2.p.pipeline with
    | none => .panicked
    | some pl =>
      let w3 := w2.log (.busAddWatch pl)
      match forEach (callHook env .Start) w3.p.partials w3 with
      | (some err, w4) => .returned err w4
      | (none, w4) =>
        let w5 := w4.log (.setState pl .StateReady)
        match env.SetState w4.trace pl .StateReady with
        | some err => .returned err w5
        | none =>
          let w6 := w5.log (.setState pl .StatePlaying)
          match env.SetState w5.trace pl .StatePlaying with
          | some err => .returned err w6
          | none => .reached pl w6

/-- `func (p *Pipeline) Start(ctx, mainLoop) (rerr error)`; `none` is a panic
on a nil `p.pipeline`. -/
def Pipeline.Start (env : Env) (mainLoop : Nat) (w : World) : Option (Option Err × World) :=
  match Pipeline.startSetup env mainLoop w with
  | .panicked => none
  | .returned err w1 => some (some err, w1)
  | .reached pl w1 => some (MainLoop.RunError env pl mainLoop (none, w1))

/-- `func (p *Pipeline) Finish(ctx)`: the error of each `Stop` is only logged. -/
def Pipeline.Finish (env : Env) (w : World) : World :=
  (forEach (fun id w1 => (none, (callHook env .Stop id w1).2)) w.p.partials w).2

/-- `func (p *Pipeline) Quit()`; `none` is the `panic("Unable to quit")`. -/
def Pipeline.Quit (w : World) : Option World :=
  match w.p.loop with
  | none => none
  | some l => some (MainLoop.Quit l w)

/-- `func NewPipeline(name string) *Pipeline`: every field but `name` has its
zero value. -/
def NewPipeline (name : String) : Pipeline :=
  { name := name, elements := [], pipeline := none, watches := [], partials := [],
    built := false, loop := none }

/-- `func NewFileSrcElement(name string, file string) *Element`. -/
def NewFileSrcElement (name file : String) : Element :=
  { Factory := "filesrc", Name := name, Properties := [("location", .str file)], el := none }

/-- `func NewDecodeElement(name string) *Element`. -/
def NewDecodeElement (name : String) : Element :=
  { Factory := "decodebin", Name := name, Properties := [], el := none }

/-! ## Sample environments and states, for evaluating the definitions -/

/-- A `PartialPipeline` whose hooks all succeed and register nothing. -/
def idlePartial : PartialPipeline :=
  { Prepare := fun _ => ⟨none, []⟩, Build := fun _ => ⟨none, []⟩,
    Start := fun _ => ⟨none, []⟩, Stop := fun _ => ⟨none, []⟩ }

/-- Sample sub-pipelines: the `Prepare` hook of number 1 registers the decoder
node (pointer 1), the `Start` hook of number 2 refuses to start, the `Stop` hook
of number 3 fails, the `Build` hook of number 4 registers the spare node
(pointer 6); every other hook succeeds and registers nothing. -/
def samplePartial : Nat → PartialPipeline
  | 1 => { idlePartial with Prepare := fun _ => ⟨none, [.AddElements [1]]⟩ }
  | 2 => { idlePartial with Start := fun _ => ⟨some (.text "refused"), []⟩ }
  | 3 => { idlePartial with Stop := fun _ => ⟨some (.text "stuck"), []⟩ }
  | 4 => { idlePartial with Build := fun _ => ⟨none, [.AddElements [6]]⟩ }
  | _ => idlePartial

/-- A sample engine.  Factory `"nosuch"` is unknown, every other stage is
created with a fresh handle; property `"tune"` is an enum, `"flags"` a flag
set, `"bogus"` is not declared, every other property has a plain type; every
other call succeeds; the bus delivers one state message and then
end-of-stream. -/
def sampleEnv : Env :=
  { NewElementWithName := fun hist factory _ =>
      if factory = "nosuch" then .error (.text "no such factory") else .ok (100 + hist.length)
    GetPropertyType := fun _ _ k =>
      if k = "tune" then .ok ⟨1, .enum⟩
      else if k = "flags" then .ok ⟨2, .flags⟩
      else if k = "bogus" then .error (.text "no such property")
      else .ok ⟨0, .other⟩
    ValueInit := fun _ _ => none
    SetPropertyValue := fun _ _ _ _ => none
    ElementSet := fun _ _ _ _ => none
    Link := fun _ _ _ => none
    LinkFiltered := fun _ _ _ _ => none
    NewPipeline := fun hist _ => .ok (100 + hist.length)
    Add := fun _ _ _ => none
    SetState := fun _ _ _ => none
    BusMessages := fun _ => [.other "state-changed", .eos]
    hooks := samplePartial }

/-- Sample descriptors: pointer 0 is the file source and pointer 1 the decoder
of the repository's test, pointer 2 names an unknown factory, pointer 3 gives
a string for an enum property, pointer 4 sets a plain property before giving a
string for an enum property, pointer 5 gives a signed integer for a flag set,
pointer 7 names an unknown factory and gives a string for an enum property,
and every other pointer is a property-less decoder. -/
def sampleHeap : Nat → Element
  | 0 => NewFileSrcElement "source" "video.mp4"
  | 1 => NewDecodeElement "bin"
  | 2 => { Factory := "nosuch", Name := "x", Properties := [], el := none }
  | 3 => { Factory := "x264enc", Name := "enc", Properties := [("tune", .str "fast")], el := none }
  | 4 => { Factory := "x264enc", Name := "enc2",
           Properties := [("bitrate", .uint 512), ("tune", .str "fast")], el := none }
  | 5 => { Factory := "playbin", Name := "play", Properties := [("flags", .int 3)], el := none }
  | 7 => { Factory := "nosuch", Name := "y", Properties := [("tune", .str "fast")], el := none }
  | _ => NewDecodeElement "spare"

/-- A freshly created container named `"segment-pipeline"` in a world where
nothing has happened yet. -/
def sampleWorld : World :=
  { heap := sampleHeap, p := NewPipeline "segment-pipeline", running := fun _ => false,
    trace := [] }

/-! ## Vocabulary of the statements -/

/-- Whether the call assigns a property on an engine stage
(`SetPropertyValue` or `Set`). -/
def Event.isAssignment : Event → Bool
  | .setPropertyValue _ _ _ => true
  | .elementSet _ _ _ => true
  | _ => false

/-- The name of the property the call assigns on an engine stage, if the call
is a property assignment. -/
def Event.assignedKey : Event → Option String
  | .setPropertyValue _ k _ => some k
  | .elementSet _ k _ => some k
  | _ => none

/-- The supplied value does not fit the declared property type: the type is an
enum and the value is not a Go `int`, or the type is a flag set and the value
is not a Go `uint`. -/
def Mismatch (t : GType) (v : Value) : Prop :=
  (t.fundamental = .enum ∧ ∀ n, v ≠ .int n) ∨ (t.fundamental = .flags ∧ ∀ n, v ≠ .uint n)

/-- The two type-mismatch errors of `Element.Build`. -/
def isTypeMismatch (k : String) (err : Option Err) : Prop :=
  err = some (.text ("property " ++ k ++ " expecting an int")) ∨
    err = some (.text ("property " ++ k ++ " expecting an uint"))

/-- What invoking hooks can change: registrations may be appended to the three
collections of the container; the descriptors, the main loops, the history and
the other fields of the container are those of the first state. -/
def HookFrame (a b : World) : Prop :=
  b.heap = a.heap ∧ b.running = a.running ∧ b.trace = a.trace ∧
    b.p.name = a.p.name ∧ b.p.pipeline = a.p.pipeline ∧ b.p.built = a.p.built ∧
    b.p.loop = a.p.loop ∧
    a.p.elements <+: b.p.elements ∧ a.p.partials <+: b.p.partials ∧
    a.p.watches <+: b.p.watches

/-- The identifier of the `PartialPipeline` on which hook `k` is invoked, if the
call is such an invocation. -/
def Event.hookId (k : HookKind) : Event → Option Nat
  | .hook k1 id => if k1 = k then some id else none
  | _ => none

/-- Whether the call is one that `Element.Build` makes. -/
def Event.isElementBuild : Event → Bool
  | .newElementWithName _ _ => true
  | .getPropertyType _ _ => true
  | .valueInit _ => true
  | .setPropertyValue _ _ _ => true
  | .elementSet _ _ _ => true
  | _ => false

/-- Whether the call adds a stage to an engine pipeline. -/
def Event.isAdd : Event → Bool
  | .pipelineAdd _ _ => true
  | _ => false

/-- The factory and name of the stage the call instantiates, if it is a
`NewElementWithName` call. -/
def Event.instantiated : Event → Option (String × String)
  | .newElementWithName factory name => some (factory, name)
  | _ => none

/-- The phase of `Pipeline.Build` a call belongs to: `Prepare` hooks (0),
creation of the engine pipeline (1), node builds (2), additions to the engine
pipeline (3), `Build` hooks (4); 5 for every call `Pipeline.Build` never
makes. -/
def Event.buildPhase : Event → Nat
  | .hook .Prepare _ => 0
  | .newPipeline _ => 1
  | .newElementWithName _ _ => 2
  | .getPropertyType _ _ => 2
  | .valueInit _ => 2
  | .setPropertyValue _ _ _ => 2
  | .elementSet _ _ _ => 2
  | .pipelineAdd _ _ => 3
  | .hook .Build _ => 4
  | _ => 5

/-- What building nodes can change: handles may be set on descriptors that had
none, and calls of `Element.Build` are appended to the history, instantiating
stages for a subsequence of the given `(factory, name)` pairs; everything else
is as in the first state. -/
def BuildFrame (names : List (String × String)) (a b : World) : Prop :=
  b.p = a.p ∧ b.running = a.running ∧
    (∀ i, (b.heap i).Factory = (a.heap i).Factory ∧ (b.heap i).Name = (a.heap i).Name) ∧
    (∀ i, ((a.heap i).el).isSome = true → (b.heap i).el = (a.heap i).el) ∧
    ∃ evs, b.trace = a.trace ++ evs ∧ (∀ ev ∈ evs, ev.isElementBuild = true) ∧
      (evs.filterMap Event.instantiated).Sublist names

/-- The additions `Pipeline.Build` makes for the nodes `es` in the state `w`:
one `Add` on the engine pipeline of `w` per node, with the node's handle. -/
def expectedAdds (w : World) (es : List Nat) : List Event :=
  match w.p.pipeline with
  | some pl => es.map (fun e => Event.pipelineAdd pl (w.heap e).el)
  | none => []

/-- The state in which `Pipeline.Build` leaves its first loop, the `Prepare`
phase. -/
def Pipeline.afterPrepare (env : Env) (w : World) : World :=
  (forEach (callHook env .Prepare) w.p.partials w).2

/-- The state in which `Pipeline.Build` enters its loop over the nodes when the
engine created the pipeline `pl`: the `Prepare` phase is over, the creation is
recorded and the handle stored. -/
def Pipeline.afterCreate (env : Env) (w : World) (pl : Nat) : World :=
  { (Pipeline.afterPrepare env w).log (.newPipeline (Pipeline.afterPrepare env w).p.name) with
    p := { (Pipeline.afterPrepare env w).p with pipeline := some pl } }

/-- The state in which `Pipeline.Build` leaves its loop of node builds. -/
def Pipeline.afterNodes (env : Env) (w : World) (pl : Nat) : World :=
  (forEach (Element.Build env) (Pipeline.afterCreate env w pl).p.elements
    (Pipeline.afterCreate env w pl)).2

/-- The state in which `Pipeline.Build` leaves its loop of additions. -/
def Pipeline.afterAdds (env : Env) (w : World) (pl : Nat) : World :=
  (forEach (Pipeline.addElement env pl) (Pipeline.afterNodes env w pl).p.elements
    (Pipeline.afterNodes env w pl)).2

/-- The message the bus hands to the installed watch, if the call is such a
delivery. -/
def Event.delivered : Event → Option Msg
  | .busMessage m => some m
  | _ => none

/-- Whether the message is neither end-of-stream nor an error. -/
def Msg.isOther : Msg → Bool
  | .other _ => true
  | _ => false

/-- A container created by `NewPipeline` (in any world) and populated with
`AddElements` and `AddPartialPipeline`. -/
inductive Populated : World → Prop where
  | new (heap : Nat → Element) (running : Nat → Bool) (trace : List Event) (name : String) :
      Populated { heap := heap, p := NewPipeline name, running := running, trace := trace }
  | addElements (es : List Nat) (w : World) :
      Populated w → Populated (Pipeline.AddElements es w)
  | addPartialPipeline (pp : Nat) (w : World) :
      Populated w → Populated (Pipeline.AddPartialPipeline pp w)

/-- The states a container can be in: created by `NewPipeline` (in any world),
then driven by any sequence of calls of its methods that return (`Start` and
`Quit` may panic instead). -/
inductive Reachable (env : Env) : World → Prop where
  | new (heap : Nat → Element) (running : Nat → Bool) (trace : List Event) (name : String) :
      Reachable env { heap := heap, p := NewPipeline name, running := running, trace := trace }
  | addElements (es : List Nat) (w : World) :
      Reachable env w → Reachable env (Pipeline.AddElements es w)
  | addWatch (f : Nat) (w : World) :
      Reachable env w → Reachable env (Pipeline.AddWatch f w)
  | addPartialPipeline (pp : Nat) (w : World) :
      Reachable env w → Reachable env (Pipeline.AddPartialPipeline pp w)
  | build (w : World) :
      Reachable env w → Reachable env (Pipeline.Build env w).2
  | start (mainLoop : Nat) (w : World) (r : Option Err × World) :
      Reachable env w → Pipeline.Start env mainLoop w = some r → Reachable env r.2
  | finish (w : World) :
      Reachable env w → Reachable env (Pipeline.Finish env w)
  | quit (w w1 : World) :
      Reachable env w → Pipeline.Quit w = some w1 → Reachable env w1

/-! ## More sample states -/

/-- The container of the repository's test before `Build`: sub-pipelines 1 and
0 registered, then the file source (pointer 0). -/
def sampleRegistered : World :=
  Pipeline.AddElements [0]
    (Pipeline.AddPartialPipeline 0 (Pipeline.AddPartialPipeline 1 sampleWorld))

/-- The state in which `Pipeline.Start` enters its loop over the `Start`
hooks when `Build` succeeded and left the engine pipeline `pl`: the loop is
captured and the bus watch installed. -/
def Pipeline.watchInstalled (env : Env) (mainLoop pl : Nat) (w : World) : World :=
  World.log
    { (Pipeline.Build env w).2 with
      p := { (Pipeline.Build env w).2.p with loop := some mainLoop } }
    (.busAddWatch pl)

/-- The second state has the descriptors, the `built` flag and the engine
pipeline handle of the first. -/
def SameBuild (a b : World) : Prop :=
  b.heap = a.heap ∧ b.p.built = a.p.built ∧ b.p.pipeline = a.p.pipeline

/-- The sample container with sub-pipelines 0, 2 and 1 registered, in this
order, and the file source; the `Start` hook of 2 refuses. -/
def sampleRefusing : World :=
  Pipeline.AddElements [0]
    (Pipeline.AddPartialPipeline 1
      (Pipeline.AddPartialPipeline 2 (Pipeline.AddPartialPipeline 0 sampleWorld)))

/-- The sample container with sub-pipeline 4, whose `Build` hook registers the
spare node (pointer 6), and the file source. -/
def sampleLate : World :=
  Pipeline.AddElements [0] (Pipeline.AddPartialPipeline 4 sampleWorld)

/-- The sample container with only the node of unknown factory registered. -/
def sampleUnknown : World :=
  Pipeline.AddElements [2] sampleWorld

/-- The state in which `Start` on the sample container reaches the run loop. -/
def sampleReached : World :=
  match Pipeline.startSetup sampleEnv 9 sampleRegistered with
  | .reached _ w => w
  | _ => sampleWorld

/-! ## Theorems -/

/-- C1: on a container with `built == true`, `Pipeline.Build` returns nil and
leaves the whole state as it was: every field of the container, every
descriptor, and the history of outgoing calls (so no hook was invoked, no engine
pipeline was created, and no node was built or added). -/
theorem C1_build_on_built_is_noop (env : Env) (w : World) (h : w.p.built = true) :
    (Pipeline.Build env w).1 = none ∧ (Pipeline.Build env w).2 = w := by
  simp [Pipeline.Build, h]

/-- Witness for C1: a built container with one registered node and one
registered sub-pipeline. -/
theorem C1_build_on_built_is_noop_witness :
    (Pipeline.Build sampleEnv
        { sampleWorld with p := { sampleWorld.p with
            built := true, pipeline := some 7, elements := [0], partials := [0] } }).1 = none ∧
      (Pipeline.Build sampleEnv
        { sampleWorld with p := { sampleWorld.p with
            built := true, pipeline := some 7, elements := [0], partials := [0] } }).2 =
        { sampleWorld with p := { sampleWorld.p with
            built := true, pipeline := some 7, elements := [0], partials := [0] } } :=
  C1_build_on_built_is_noop sampleEnv _ rfl

/-- On a built container `Pipeline.Build` does nothing. -/
theorem Pipeline.Build_noop_when_built (env : Env) (w : World) (h : w.p.built = true) :
    Pipeline.Build env w = (none, w) := by
  simp [Pipeline.Build, h]

/-! ### Generic facts about range loops -/

/-- A reflexive and transitive relation between states that every iteration
establishes holds between the state before and the state after a loop. -/
theorem forEach_rel {α : Type} (R : World → World → Prop) (hrefl : ∀ w, R w w)
    (htrans : ∀ a b c, R a b → R b c → R a c) (body : α → World → Option Err × World)
    (hbody : ∀ x w, R w (body x w).2) (xs : List α) (w : World) :
    R w (forEach body xs w).2 := by
  induction xs generalizing w with
  | nil => exact hrefl w
  | cons x xs ih =>
    have hx := hbody x w
    simp only [forEach]
    rcases hb : body x w with ⟨_ | err, w1⟩
    · rw [hb] at hx
      exact htrans _ _ _ hx (ih w1)
    · rw [hb] at hx
      exact hx

/-- A loop that succeeds on `ps` and whose body then fails on `q` returns that
failure, in the state the failing iteration left, whatever follows `q`. -/
theorem forEach_append_fail {α : Type} (body : α → World → Option Err × World)
    (ps : List α) (q : α) (rest : List α) (w : World) (e : Err)
    (hps : (forEach body ps w).1 = none) (hq : (body q (forEach body ps w).2).1 = some e) :
    forEach body (ps ++ q :: rest) w = (some e, (body q (forEach body ps w).2).2) := by
  induction ps generalizing w with
  | nil =>
    simp only [forEach, List.nil_append] at hq ⊢
    rcases hb : body q w with ⟨_ | err, w1⟩
    · rw [hb] at hq
      simp at hq
    · rw [hb] at hq
      simp only [Option.some.injEq] at hq
      simp [hq]
  | cons x xs ih =>
    simp only [forEach, List.cons_append] at hps hq ⊢
    rcases hb : body x w with ⟨_ | err, w1⟩
    · rw [hb] at hps hq
      exact ih w1 hps hq
    · rw [hb] at hps
      simp at hps

/-- A loop that succeeds on `xs ++ x :: rest` succeeded on `xs` and on `x`. -/
theorem forEach_append_ok {α : Type} (body : α → World → Option Err × World)
    (xs : List α) (x : α) (rest : List α) (w : World)
    (h : (forEach body (xs ++ x :: rest) w).1 = none) :
    (forEach body xs w).1 = none ∧ (body x (forEach body xs w).2).1 = none := by
  induction xs generalizing w with
  | nil =>
    simp only [forEach, List.nil_append] at h ⊢
    rcases hb : body x w with ⟨_ | err, w1⟩
    · simp
    · rw [hb] at h
      simp at h
  | cons y ys ih =>
    simp only [forEach, List.cons_append] at h ⊢
    rcases hb : body y w with ⟨_ | err, w1⟩
    · rw [hb] at h
      exact ih w1 h
    · rw [hb] at h
      simp at h

/-- A loop over `xs ++ ys` that succeeds on `xs` continues with `ys` in the
state the loop over `xs` left. -/
theorem forEach_append_continue {α : Type} (body : α → World → Option Err × World)
    (xs ys : List α) (w : World) (h : (forEach body xs w).1 = none) :
    forEach body (xs ++ ys) w = forEach body ys (forEach body xs w).2 := by
  induction xs generalizing w with
  | nil => simp [forEach]
  | cons y zs ih =>
    simp only [forEach, List.cons_append] at h ⊢
    rcases hb : body y w with ⟨_ | err, w1⟩
    · rw [hb] at h
      exact ih w1 h
    · rw [hb] at h
      simp at h

/-! ### `Element.Build` -/

/-- Setting one property changes nothing but the history. -/
theorem Element.setProperty_frame (env : Env) (element : Nat) (kv : String × Value) (w : World) :
    (Element.setProperty env element kv w).2.heap = w.heap ∧
      (Element.setProperty env element kv w).2.p = w.p ∧
      (Element.setProperty env element kv w).2.running = w.running := by
  unfold Element.setProperty
  simp only
  split
  · simp [World.log]
  · split
    · split
      · simp [World.log]
      · split <;> simp [World.log]
    · split
      · split
        · simp [World.log]
        · split <;> simp [World.log]
      · simp [World.log]

/-- The property loop changes nothing but the history. -/
theorem Element.setProperties_frame (env : Env) (element : Nat) (kvs : List (String × Value))
    (w : World) :
    (forEach (Element.setProperty env element) kvs w).2.heap = w.heap ∧
      (forEach (Element.setProperty env element) kvs w).2.p = w.p ∧
      (forEach (Element.setProperty env element) kvs w).2.running = w.running := by
  refine forEach_rel (fun a b => b.heap = a.heap ∧ b.p = a.p ∧ b.running = a.running)
    (fun _ => ⟨rfl, rfl, rfl⟩) ?_ _ (Element.setProperty_frame env element) kvs w
  rintro a b c ⟨h1, h2, h3⟩ ⟨h4, h5, h6⟩
  exact ⟨h4.trans h1, h5.trans h2, h6.trans h3⟩

/-- On a descriptor that already has its handle, `Element.Build` does nothing. -/
theorem Element.Build_of_built (env : Env) (e : Nat) (w : World) (a : Nat)
    (h : (w.heap e).el = some a) : Element.Build env e w = (none, w) := by
  simp [Element.Build, h]

/-- `Element.Build` leaves the container alone, leaves every other descriptor
alone, never removes a handle, and sets the handle when it succeeds; when it
fails, no descriptor changes. -/
theorem Element.Build_spec (env : Env) (e : Nat) (w : World) :
    (Element.Build env e w).2.p = w.p ∧
      (Element.Build env e w).2.running = w.running ∧
      (∀ i, i ≠ e → (Element.Build env e w).2.heap i = w.heap i) ∧
      (∀ i, ((w.heap i).el).isSome = true → ((Element.Build env e w).2.heap i).el = (w.heap i).el) ∧
      ((Element.Build env e w).1 = none → (((Element.Build env e w).2.heap e).el).isSome = true) ∧
      ((Element.Build env e w).1 ≠ none → (Element.Build env e w).2.heap = w.heap) := by
  unfold Element.Build
  split
  · rename_i a ha
    simp [ha]
  · rename_i hnone
    simp only
    split
    · simp [World.log]
    · rename_i element _
      have hf := Element.setProperties_frame env element (w.heap e).Properties
        (w.log (.newElementWithName (w.heap e).Factory (w.heap e).Name))
      simp only [World.log] at hf ⊢
      split
      · rename_i err w2 hw2
        rw [hw2] at hf
        obtain ⟨h1, h2, h3⟩ := hf
        simp only at h1 h2 h3
        simp [h1, h2, h3]
      · rename_i w2 hw2
        rw [hw2] at hf
        obtain ⟨h1, h2, h3⟩ := hf
        simp only at h1 h2 h3
        refine ⟨h2, h3, fun i hi => ?_, fun i hi => ?_, fun _ => ?_, fun hne => absurd rfl hne⟩
        · simp [Function.update_noteq hi, h1]
        · by_cases hie : i = e
          · subst hie
            simp [hnone] at hi
          · simp [Function.update_noteq hie, h1]
        · simp

/-- C2 (amended): once `Element.Build` has returned success, calling it again
returns success and leaves the whole state (descriptor, container, history of
engine calls) as the first call left it: no stage is instantiated, no property
type is queried and no property is assigned. -/
theorem C2_build_again_after_success (env : Env) (e : Nat) (w : World)
    (h : (Element.Build env e w).1 = none) :
    Element.Build env e (Element.Build env e w).2 = (none, (Element.Build env e w).2) := by
  have hs := (Element.Build_spec env e w).2.2.2.2.1 h
  obtain ⟨a, ha⟩ := Option.isSome_iff_exists.mp hs
  exact Element.Build_of_built env e _ a ha

/-- Witness for C2 (amended): the file-source descriptor of the test on the
sample engine. -/
theorem C2_build_again_after_success_witness :
    (Element.Build sampleEnv 0 sampleWorld).1 = none ∧
      Element.Build sampleEnv 0 (Element.Build sampleEnv 0 sampleWorld).2 =
        (none, (Element.Build sampleEnv 0 sampleWorld).2) :=
  ⟨by decide, C2_build_again_after_success sampleEnv 0 sampleWorld (by decide)⟩

/-- C2, as stated, fails: when the factory is unknown to the engine the first
`Build` fails, and the second call asks the engine to instantiate the stage
again. -/
theorem C2_counterexample :
    (Element.Build sampleEnv 2 sampleWorld).1 = some (.text "no such factory") ∧
      (Element.Build sampleEnv 2 sampleWorld).2.trace = [.newElementWithName "nosuch" "x"] ∧
      (Element.Build sampleEnv 2 (Element.Build sampleEnv 2 sampleWorld).2).2.trace =
        [.newElementWithName "nosuch" "x", .newElementWithName "nosuch" "x"] := by
  decide

/-! ### Property type checks -/

/-- Visiting a property whose value does not fit its declared type fails
without assigning anything; if value initialisation succeeds the failure is the
type-mismatch error. -/
theorem Element.setProperty_mismatch (env : Env) (element : Nat) (k : String) (v : Value)
    (w : World) (t : GType) (ht : env.GetPropertyType w.trace element k = .ok t)
    (hm : Mismatch t v) :
    (Element.setProperty env element (k, v) w).1 ≠ none ∧
      (Element.setProperty env element (k, v) w).2.trace.filter Event.isAssignment =
        w.trace.filter Event.isAssignment ∧
      (env.ValueInit (w.trace ++ [.getPropertyType element k]) t = none →
        isTypeMismatch k (Element.setProperty env element (k, v) w).1) := by
  unfold Element.setProperty
  simp only [ht, World.log]
  rcases hm with ⟨hf, hv⟩ | ⟨hf, hv⟩
  · simp only [GType.IsA, hf, decide_True, if_true]
    cases hvi : env.ValueInit (w.trace ++ [.getPropertyType element k]) t with
    | some err => simp [Event.isAssignment, List.filter_append]
    | none =>
      cases v with
      | int n => exact absurd rfl (hv n)
      | _ => simp [Event.isAssignment, List.filter_append, isTypeMismatch]
  · simp only [GType.IsA, hf]
    cases hvi : env.ValueInit (w.trace ++ [.getPropertyType element k]) t with
    | some err => simp [Event.isAssignment, List.filter_append]
    | none =>
      cases v with
      | uint n => exact absurd rfl (hv n)
      | _ => simp [Event.isAssignment, List.filter_append, isTypeMismatch]

/-- A property loop that visits an ill-typed property fails. -/
theorem Element.setProperties_mismatch (env : Env) (element : Nat) (k : String) (v : Value)
    (hty : ∀ hist h, ∃ t, env.GetPropertyType hist h k = .ok t ∧ Mismatch t v)
    (kvs : List (String × Value)) (hmem : (k, v) ∈ kvs) (w : World) :
    (forEach (Element.setProperty env element) kvs w).1 ≠ none := by
  induction kvs generalizing w with
  | nil => simp at hmem
  | cons kv kvs ih =>
    simp only [forEach]
    rcases hb : Element.setProperty env element kv w with ⟨_ | err, w1⟩
    · simp only
      rcases List.mem_cons.mp hmem with h | h
      · obtain ⟨t, ht, hm⟩ := hty w.trace element
        have := (Element.setProperty_mismatch env element k v w t ht hm).1
        rw [h, hb] at this
        exact absurd rfl this
      · exact ih h w1
    · simp

/-- Visiting one property assigns at most that property, and assigns it when
the visit succeeds. -/
theorem Element.setProperty_assigned (env : Env) (element : Nat) (kv : String × Value)
    (w : World) :
    ∃ evs, (Element.setProperty env element kv w).2.trace = w.trace ++ evs ∧
      (evs.filterMap Event.assignedKey = [] ∨ evs.filterMap Event.assignedKey = [kv.1]) ∧
      ((Element.setProperty env element kv w).1 = none →
        evs.filterMap Event.assignedKey = [kv.1]) := by
  unfold Element.setProperty
  simp only [World.log]
  repeat' split
  all_goals
    simp only [List.append_assoc, List.singleton_append, List.cons_append, List.nil_append]
    exact ⟨_, rfl, by simp [Event.assignedKey], by simp [Event.assignedKey]⟩

/-- Visiting a property whose value does not fit its declared type assigns
nothing. -/
theorem Element.setProperty_mismatch_keys (env : Env) (element : Nat) (k : String) (v : Value)
    (w : World) (t : GType) (ht : env.GetPropertyType w.trace element k = .ok t)
    (hm : Mismatch t v) :
    ∃ evs, (Element.setProperty env element (k, v) w).2.trace = w.trace ++ evs ∧
      evs.filterMap Event.assignedKey = [] := by
  unfold Element.setProperty
  simp only [ht, World.log]
  rcases hm with ⟨hf, hv⟩ | ⟨hf, hv⟩
  · simp only [GType.IsA, hf, decide_True, if_true]
    cases hvi : env.ValueInit (w.trace ++ [.getPropertyType element k]) t with
    | some err =>
      simp only [List.append_assoc, List.singleton_append, List.cons_append, List.nil_append]
      exact ⟨_, rfl, by simp [Event.assignedKey]⟩
    | none =>
      cases v with
      | int n => exact absurd rfl (hv n)
      | _ =>
        simp only [List.append_assoc, List.singleton_append, List.cons_append, List.nil_append]
        exact ⟨_, rfl, by simp [Event.assignedKey]⟩
  · simp only [GType.IsA, hf]
    cases hvi : env.ValueInit (w.trace ++ [.getPropertyType element k]) t with
    | some err =>
      simp only [List.append_assoc, List.singleton_append, List.cons_append, List.nil_append]
      exact ⟨_, rfl, by simp [Event.assignedKey]⟩
    | none =>
      cases v with
      | uint n => exact absurd rfl (hv n)
      | _ =>
        simp only [List.append_assoc, List.singleton_append, List.cons_append, List.nil_append]
        exact ⟨_, rfl, by simp [Event.assignedKey]⟩

/-- A property loop that visits the properties `pre` and then an ill-typed
property assigns, in visiting order, properties of an initial segment of `pre`
and nothing else. -/
theorem Element.setProperties_assigned (env : Env) (element : Nat) (k : String) (v : Value)
    (hty : ∀ hist h, ∃ t, env.GetPropertyType hist h k = .ok t ∧ Mismatch t v)
    (pre rest : List (String × Value)) (w : World) :
    ∃ evs, (forEach (Element.setProperty env element) (pre ++ (k, v) :: rest) w).2.trace =
        w.trace ++ evs ∧
      evs.filterMap Event.assignedKey <+: pre.map Prod.fst := by
  induction pre generalizing w with
  | nil =>
    obtain ⟨t, ht, hm⟩ := hty w.trace element
    obtain ⟨evs, h1, h2⟩ := Element.setProperty_mismatch_keys env element k v w t ht hm
    have hfail := (Element.setProperty_mismatch env element k v w t ht hm).1
    simp only [List.nil_append, forEach]
    rcases hb : Element.setProperty env element (k, v) w with ⟨_ | err, w1⟩
    · rw [hb] at hfail
      exact absurd rfl hfail
    · rw [hb] at h1
      exact ⟨evs, h1, by rw [h2]; exact List.nil_prefix⟩
  | cons kv pre ih =>
    obtain ⟨evs1, h1, h2, h3⟩ := Element.setProperty_assigned env element kv w
    rw [List.cons_append]
    simp only [forEach]
    rcases hb : Element.setProperty env element kv w with ⟨_ | err, w1⟩
    · rw [hb] at h1 h3
      simp only at h1 h3 ⊢
      obtain ⟨evs2, i1, i2⟩ := ih w1
      refine ⟨evs1 ++ evs2, by rw [i1, h1, List.append_assoc], ?_⟩
      rw [List.filterMap_append, h3 trivial, List.map_cons]
      exact (List.prefix_cons_inj kv.1).mpr i2
    · rw [hb] at h1
      refine ⟨evs1, h1, ?_⟩
      rcases h2 with h | h
      · rw [h]; exact List.nil_prefix
      · rw [h, List.map_cons]
        exact (List.prefix_cons_inj kv.1).mpr List.nil_prefix

/-- C4 (amended): if an un-built descriptor has a property `k` that the engine
declares as an enum while the supplied value is not an `int` (or as a flag set
while the value is not a `uint`), then `Element.Build` fails and the descriptor
keeps no handle (no descriptor changes at all).  Whatever the position of `k`
in the visiting order, the properties assigned on the stage are, in order,
properties visited before `k`: neither `k` nor a property visited after it is
assigned.  And unless the stage instantiation, a property visited before `k`,
or the value initialisation fails first, the error is the type-mismatch error
and the assignments made are those of the properties visited before `k`. -/
theorem C4_type_mismatch_fails_build (env : Env) (e : Nat) (w : World) (k : String) (v : Value)
    (hel : (w.heap e).el = none) (hmem : (k, v) ∈ (w.heap e).Properties)
    (hty : ∀ hist h, ∃ t, env.GetPropertyType hist h k = .ok t ∧ Mismatch t v) :
    (Element.Build env e w).1 ≠ none ∧
      (Element.Build env e w).2.heap = w.heap ∧
      ((Element.Build env e w).2.heap e).el = none ∧
      (∀ pre rest, (w.heap e).Properties = pre ++ (k, v) :: rest →
        ∃ evs, (Element.Build env e w).2.trace = w.trace ++ evs ∧
          evs.filterMap Event.assignedKey <+: pre.map Prod.fst) ∧
      (∀ pre rest element, (w.heap e).Properties = pre ++ (k, v) :: rest →
        env.NewElementWithName w.trace (w.heap e).Factory (w.heap e).Name = .ok element →
        (forEach (Element.setProperty env element) pre
          (w.log (.newElementWithName (w.heap e).Factory (w.heap e).Name))).1 = none →
        (∀ t, env.ValueInit
          ((forEach (Element.setProperty env element) pre
            (w.log (.newElementWithName (w.heap e).Factory (w.heap e).Name))).2.trace ++
              [.getPropertyType element k]) t = none) →
        isTypeMismatch k (Element.Build env e w).1 ∧
          (Element.Build env e w).2.trace.filter Event.isAssignment =
            (forEach (Element.setProperty env element) pre
              (w.log (.newElementWithName (w.heap e).Factory
                (w.heap e).Name))).2.trace.filter Event.isAssignment) := by
  have hfail : (Element.Build env e w).1 ≠ none := by
    unfold Element.Build
    simp only [hel, World.log]
    split
    · simp
    · rename_i element _
      have := Element.setProperties_mismatch env element k v hty _ hmem
        { w with trace := w.trace ++ [.newElementWithName (w.heap e).Factory (w.heap e).Name] }
      split
      · simp
      · rename_i w2 hw2
        rw [hw2] at this
        exact absurd rfl this
  have hheap := (Element.Build_spec env e w).2.2.2.2.2 hfail
  refine ⟨hfail, hheap, by rw [hheap]; exact hel, ?_, ?_⟩
  · intro pre rest hprops
    unfold Element.Build
    simp only [hel]
    cases hnew : env.NewElementWithName w.trace (w.heap e).Factory (w.heap e).Name with
    | error err =>
      exact ⟨[_], rfl, by simp [Event.assignedKey]⟩
    | ok element =>
      obtain ⟨evs, h1, h2⟩ := Element.setProperties_assigned env element k v hty pre rest
        (w.log (.newElementWithName (w.heap e).Factory (w.heap e).Name))
      have hp : ((w.log (.newElementWithName (w.heap e).Factory (w.heap e).Name)).heap e).Properties
          = pre ++ (k, v) :: rest := hprops
      simp only [hp]
      have htr : (forEach (Element.setProperty env element) (pre ++ (k, v) :: rest)
          (w.log (.newElementWithName (w.heap e).Factory (w.heap e).Name))).2.trace =
          w.trace ++ (Event.newElementWithName (w.heap e).Factory (w.heap e).Name :: evs) := by
        rw [h1]
        simp [World.log]
      split
      · rename_i err w2 hw2
        rw [hw2] at htr
        exact ⟨_, htr, by simpa [Event.assignedKey] using h2⟩
      · rename_i w2 hw2
        rw [hw2] at htr
        exact ⟨_, htr, by simpa [Event.assignedKey] using h2⟩
  · intro pre rest element hprops hnew hpre hvi
    obtain ⟨t, ht, hm⟩ := hty
      (forEach (Element.setProperty env element) pre
        (w.log (.newElementWithName (w.heap e).Factory (w.heap e).Name))).2.trace element
    have hsp := Element.setProperty_mismatch env element k v
      (forEach (Element.setProperty env element) pre
        (w.log (.newElementWithName (w.heap e).Factory (w.heap e).Name))).2 t ht hm
    obtain ⟨err, herr⟩ := Option.ne_none_iff_exists'.mp hsp.1
    have hloop := forEach_append_fail (Element.setProperty env element) pre (k, v) rest
      (w.log (.newElementWithName (w.heap e).Factory (w.heap e).Name)) err hpre herr
    have hp : ((w.log (.newElementWithName (w.heap e).Factory (w.heap e).Name)).heap e).Properties
        = pre ++ (k, v) :: rest := hprops
    have hB : Element.Build env e w = (some err, (Element.setProperty env element (k, v)
        (forEach (Element.setProperty env element) pre
          (w.log (.newElementWithName (w.heap e).Factory (w.heap e).Name))).2).2) := by
      unfold Element.Build
      simp only [hel, hnew, hp, hloop]
    rw [hB]
    refine ⟨?_, hsp.2.1⟩
    have := hsp.2.2 (hvi t)
    rw [herr] at this
    exact this

/-- Witness for C4 (amended): the encoder descriptor that sets the plain
property `bitrate` and then gives a string for the enum `tune`: `Build` fails
with the type-mismatch error, and the only assignment made is `bitrate`. -/
theorem C4_type_mismatch_fails_build_witness :
    (Element.Build sampleEnv 4 sampleWorld).1 ≠ none ∧
      (Element.Build sampleEnv 4 sampleWorld).2.heap = sampleWorld.heap ∧
      ((Element.Build sampleEnv 4 sampleWorld).2.heap 4).el = none ∧
      (∃ evs, (Element.Build sampleEnv 4 sampleWorld).2.trace = sampleWorld.trace ++ evs ∧
        evs.filterMap Event.assignedKey <+: [("bitrate", Value.uint 512)].map Prod.fst) ∧
      isTypeMismatch "tune" (Element.Build sampleEnv 4 sampleWorld).1 :=
  have hty : ∀ (hist : List Event) (h : Nat),
      ∃ t, sampleEnv.GetPropertyType hist h "tune" = .ok t ∧ Mismatch t (.str "fast") :=
    fun _ _ => ⟨⟨1, .enum⟩, rfl, Or.inl ⟨rfl, fun _ => by simp⟩⟩
  have h := C4_type_mismatch_fails_build sampleEnv 4 sampleWorld "tune" (.str "fast") rfl
    (by simp [sampleWorld, sampleHeap]) hty
  ⟨h.1, h.2.1, h.2.2.1, h.2.2.2.1 [("bitrate", .uint 512)] [] rfl,
    (h.2.2.2.2 [("bitrate", .uint 512)] [] 100 rfl rfl (by decide) (fun _ => rfl)).1⟩

/-- C4, as stated, fails.  On the sample engine, in a run where the property
loop visits `bitrate` before `tune`, the descriptor that sets the plain
property `bitrate` and gives a string for the enum `tune` fails with the
type-mismatch error only after `bitrate` was assigned on the stage.  And the
descriptor that gives a string for the enum `tune` but names an unknown factory
fails with the instantiation error, which is not the type-mismatch error. -/
theorem C4_counterexample :
    (sampleHeap 4).el = none ∧
      ("tune", Value.str "fast") ∈ (sampleHeap 4).Properties ∧
      (Element.Build sampleEnv 4 sampleWorld).1 =
        some (.text "property tune expecting an int") ∧
      (Element.Build sampleEnv 4 sampleWorld).2.trace =
        [.newElementWithName "x264enc" "enc2", .getPropertyType 100 "bitrate",
         .elementSet 100 "bitrate" (.uint 512), .getPropertyType 100 "tune",
         .valueInit ⟨1, .enum⟩] ∧
      (Element.Build sampleEnv 4 sampleWorld).2.trace.filter Event.isAssignment ≠
        sampleWorld.trace.filter Event.isAssignment ∧
      (sampleHeap 7).el = none ∧
      (sampleHeap 7).Properties = [("tune", Value.str "fast")] ∧
      (Element.Build sampleEnv 7 sampleWorld).1 = some (.text "no such factory") := by
  decide

/-! ### Hooks -/

theorem HookFrame.refl (w : World) : HookFrame w w :=
  ⟨rfl, rfl, rfl, rfl, rfl, rfl, rfl, List.prefix_refl _, List.prefix_refl _, List.prefix_refl _⟩

theorem HookFrame.trans {a b c : World} (h1 : HookFrame a b) (h2 : HookFrame b c) :
    HookFrame a c := by
  obtain ⟨a1, a2, a3, a4, a5, a6, a7, a8, a9, a10⟩ := h1
  obtain ⟨b1, b2, b3, b4, b5, b6, b7, b8, b9, b10⟩ := h2
  exact ⟨b1.trans a1, b2.trans a2, b3.trans a3, b4.trans a4, b5.trans a5, b6.trans a6,
    b7.trans a7, a8.trans b8, a9.trans b9, a10.trans b10⟩

/-- One registration only appends to one collection. -/
theorem Registration.apply_frame (r : Registration) (w : World) : HookFrame w (r.apply w) := by
  cases r <;>
    simp [Registration.apply, Pipeline.AddElements, Pipeline.AddWatch,
      Pipeline.AddPartialPipeline, HookFrame]

/-- Registrations only append to the collections. -/
theorem applyRegs_frame (rs : List Registration) (w : World) : HookFrame w (applyRegs rs w) := by
  induction rs generalizing w with
  | nil => exact HookFrame.refl w
  | cons r rs ih => exact (Registration.apply_frame r w).trans (ih _)

/-- Invoking a hook records the invocation and otherwise only appends to the
collections. -/
theorem callHook_frame (env : Env) (k : HookKind) (id : Nat) (w : World) :
    HookFrame (w.log (.hook k id)) (callHook env k id w).2 :=
  applyRegs_frame _ _

/-- A loop of hook invocations that stops at the first failure invokes the
hook on an initial segment of the list, in order, and on the whole list when it
succeeds; when it fails, the hook invoked last is the one that failed. -/
theorem hookLoop_spec (env : Env) (k : HookKind) (ps : List Nat) (w : World) :
    ∃ n, n ≤ ps.length ∧
      HookFrame { w with trace := w.trace ++ (ps.take n).map (Event.hook k) }
        (forEach (callHook env k) ps w).2 ∧
      ((forEach (callHook env k) ps w).1 = none → n = ps.length) ∧
      ((forEach (callHook env k) ps w).1 ≠ none → 0 < n) := by
  induction ps generalizing w with
  | nil => exact ⟨0, le_refl _, by simpa [forEach] using HookFrame.refl w, by simp [forEach]⟩
  | cons x xs ih =>
    have hx := callHook_frame env k x w
    simp only [forEach]
    rcases hb : callHook env k x w with ⟨_ | err, w1⟩
    · rw [hb] at hx
      obtain ⟨n, hn, hfr, hnone, hsome⟩ := ih w1
      refine ⟨n + 1, by simpa using hn, ?_, by simpa using hnone, by simp⟩
      refine HookFrame.trans ?_ hfr
      obtain ⟨a1, a2, a3, a4, a5, a6, a7, a8, a9, a10⟩ := hx
      simp only [World.log] at a1 a2 a3 a4 a5 a6 a7 a8 a9 a10
      exact ⟨a1, a2, by simp [a3], a4, a5, a6, a7, a8, a9, a10⟩
    · rw [hb] at hx
      refine ⟨1, by simp, ?_, by simp, by simp⟩
      simpa [World.log] using hx

/-- The loop of `Pipeline.Finish` invokes `Stop` on every element of the
list, in order, whatever the hooks return, and otherwise only lets them
register. -/
theorem finishLoop_frame (env : Env) (ps : List Nat) (w : World) :
    HookFrame { w with trace := w.trace ++ ps.map (Event.hook .Stop) }
      (forEach (fun id w1 => (none, (callHook env .Stop id w1).2)) ps w).2 := by
  induction ps generalizing w with
  | nil => simpa [forEach] using HookFrame.refl w
  | cons x xs ih =>
    simp only [forEach]
    refine HookFrame.trans ?_ (ih _)
    obtain ⟨a1, a2, a3, a4, a5, a6, a7, a8, a9, a10⟩ := callHook_frame env .Stop x w
    simp only [World.log] at a1 a2 a3 a4 a5 a6 a7 a8 a9 a10
    exact ⟨a1, a2, by simp [a3], a4, a5, a6, a7, a8, a9, a10⟩

/-- C6: whatever each `Stop` hook returns, `Pipeline.Finish` invokes `Stop`
once per registration, on every `PartialPipeline` registered when it is called,
in registration order, and makes no other outgoing call; it has no result
through which a failure could reach the caller, and it leaves the descriptors
and the build state of the container as they were. -/
theorem C6_finish_stops_every_partial (env : Env) (w : World) :
    (Pipeline.Finish env w).trace = w.trace ++ w.p.partials.map (Event.hook .Stop) ∧
      (Pipeline.Finish env w).heap = w.heap ∧
      (Pipeline.Finish env w).p.built = w.p.built ∧
      (Pipeline.Finish env w).p.pipeline = w.p.pipeline := by
  unfold Pipeline.Finish
  obtain ⟨a1, _, a3, _, a5, a6, _⟩ := finishLoop_frame env w.p.partials w
  exact ⟨a3, a1, a6, a5⟩

/-! ### The node loops of `Pipeline.Build` -/

/-- The calls of the property loop are calls of `Element.Build` other than
instantiations. -/
theorem Element.setProperties_trace (env : Env) (element : Nat) (kvs : List (String × Value))
    (w : World) :
    ∃ evs, (forEach (Element.setProperty env element) kvs w).2.trace = w.trace ++ evs ∧
      (∀ ev ∈ evs, ev.isElementBuild = true) ∧ evs.filterMap Event.instantiated = [] := by
  refine forEach_rel (fun a b => ∃ evs, b.trace = a.trace ++ evs ∧
      (∀ ev ∈ evs, ev.isElementBuild = true) ∧ evs.filterMap Event.instantiated = [])
    (fun _ => ⟨[], by simp⟩) ?_ _ ?_ kvs w
  · rintro a b c ⟨e1, h1, h2, h3⟩ ⟨e2, h4, h5, h6⟩
    refine ⟨e1 ++ e2, by rw [h4, h1, List.append_assoc], ?_, by simp [h3, h6]⟩
    intro ev hev
    rcases List.mem_append.mp hev with h | h
    · exact h2 ev h
    · exact h5 ev h
  · intro kv w
    unfold Element.setProperty
    simp only [World.log]
    repeat' split
    all_goals
      simp only [List.append_assoc, List.singleton_append, List.cons_append, List.nil_append]
      exact ⟨_, rfl, by simp [Event.isElementBuild], by simp [Event.instantiated]⟩

/-- `Element.Build` on one node stays within `BuildFrame` for that node. -/
theorem Element.Build_frame (env : Env) (e : Nat) (w : World) :
    BuildFrame [((w.heap e).Factory, (w.heap e).Name)] w (Element.Build env e w).2 := by
  obtain ⟨hp, hr, hne, hmono, -, -⟩ := Element.Build_spec env e w
  refine ⟨hp, hr, ?_, hmono, ?_⟩
  · intro i
    by_cases hi : i = e
    · subst hi
      unfold Element.Build
      split
      · simp
      · simp only
        split
        · simp [World.log]
        · rename_i element _
          have hf := Element.setProperties_frame env element (w.heap i).Properties
            (w.log (.newElementWithName (w.heap i).Factory (w.heap i).Name))
          simp only [World.log] at hf ⊢
          split
          · rename_i err w2 hw2
            rw [hw2] at hf
            simp only at hf
            simp [hf.1]
          · rename_i w2 hw2
            rw [hw2] at hf
            simp only at hf
            simp [hf.1]
    · rw [hne i hi]
      exact ⟨rfl, rfl⟩
  · unfold Element.Build
    split
    · exact ⟨[], by simp⟩
    · simp only
      split
      · exact ⟨[_], rfl, by simp [Event.isElementBuild], by simp [Event.instantiated]⟩
      · rename_i element _
        obtain ⟨evs, h1, h2, h3⟩ := Element.setProperties_trace env element (w.heap e).Properties
          (w.log (.newElementWithName (w.heap e).Factory (w.heap e).Name))
        simp only [World.log] at h1 ⊢
        have hev : ∀ ev ∈ Event.newElementWithName (w.heap e).Factory (w.heap e).Name :: evs,
            ev.isElementBuild = true := by
          intro ev hev
          rcases List.mem_cons.mp hev with h | h
          · subst h; rfl
          · exact h2 ev h
        split
        · rename_i err w2 hw2
          rw [hw2] at h1
          exact ⟨_ :: evs, by simpa using h1, hev, by simp [Event.instantiated, h3]⟩
        · rename_i w2 hw2
          rw [hw2] at h1
          exact ⟨_ :: evs, by simpa using h1, hev, by simp [Event.instantiated, h3]⟩

/-- The loop `for _, element := range p.elements { element.Build() }` stays
within `BuildFrame` for the nodes it ranges over, and when it succeeds every
one of them has its handle. -/
theorem buildLoop_spec (env : Env) (es : List Nat) (w : World) :
    BuildFrame (es.map fun e => ((w.heap e).Factory, (w.heap e).Name)) w
        (forEach (Element.Build env) es w).2 ∧
      ((forEach (Element.Build env) es w).1 = none →
        ∀ e ∈ es, (((forEach (Element.Build env) es w).2.heap e).el).isSome = true) := by
  induction es generalizing w with
  | nil => exact ⟨⟨rfl, rfl, fun _ => ⟨rfl, rfl⟩, fun _ _ => rfl, [], by simp [forEach]⟩, by simp⟩
  | cons x xs ih =>
    have hx := Element.Build_frame env x w
    have hs := (Element.Build_spec env x w).2.2.2.2.1
    simp only [forEach]
    rcases hb : Element.Build env x w with ⟨_ | err, w1⟩
    · rw [hb] at hx hs
      simp only at hs ⊢
      obtain ⟨⟨b1, b2, b3, b4, evs2, b5, b6, b7⟩, hall⟩ := ih w1
      obtain ⟨a1, a2, a3, a4, evs1, a5, a6, a7⟩ := hx
      refine ⟨⟨b1.trans a1, b2.trans a2, fun i => ⟨(b3 i).1.trans (a3 i).1, (b3 i).2.trans (a3 i).2⟩,
        fun i hi => ?_, evs1 ++ evs2, by rw [b5, a5, List.append_assoc], ?_, ?_⟩, ?_⟩
      · have h1 := a4 i hi
        rw [b4 i (by rw [h1]; exact hi), h1]
      · intro ev hev
        rcases List.mem_append.mp hev with h | h
        · exact a6 ev h
        · exact b6 ev h
      · rw [List.filterMap_append]
        have : (List.map (fun e => ((w1.heap e).Factory, (w1.heap e).Name)) xs) =
            (List.map (fun e => ((w.heap e).Factory, (w.heap e).Name)) xs) := by
          apply List.map_congr_left
          intro e _
          rw [(a3 e).1, (a3 e).2]
        rw [this] at b7
        exact List.Sublist.append a7 b7
      · intro hnone e he
        rcases List.mem_cons.mp he with h | h
        · subst h
          rw [b4 e (hs trivial)]
          exact hs trivial
        · exact hall hnone e h
    · rw [hb] at hx
      simp only
      obtain ⟨a1, a2, a3, a4, evs1, a5, a6, a7⟩ := hx
      refine ⟨⟨a1, a2, a3, a4, evs1, a5, a6, ?_⟩, by simp⟩
      exact a7.trans (by simp)

/-- The loop `for index := range p.elements { p.pipeline.Add(...) }` changes
nothing but the history, to which it appends one `Add` per node of an initial
segment of the list, the whole list when it succeeds. -/
theorem addLoop_spec (env : Env) (pl : Nat) (es : List Nat) (w : World) :
    ∃ n, n ≤ es.length ∧
      (forEach (Pipeline.addElement env pl) es w).2 =
        { w with trace := w.trace ++
            (es.take n).map (fun e => Event.pipelineAdd pl (w.heap e).el) } ∧
      ((forEach (Pipeline.addElement env pl) es w).1 = none → n = es.length) := by
  induction es generalizing w with
  | nil => exact ⟨0, le_refl _, by simp [forEach], by simp⟩
  | cons x xs ih =>
    simp only [forEach]
    rcases hb : Pipeline.addElement env pl x w with ⟨_ | err, w1⟩
    · have hw1 : w1 = w.log (.pipelineAdd pl (w.heap x).el) := by
        simpa [Pipeline.addElement] using (congrArg Prod.snd hb).symm
      obtain ⟨n, hn, heq, hnone⟩ := ih w1
      refine ⟨n + 1, by simpa using hn, ?_, by simpa using hnone⟩
      simp only
      rw [heq, hw1]
      simp [World.log]
    · have hw1 : w1 = w.log (.pipelineAdd pl (w.heap x).el) := by
        simpa [Pipeline.addElement] using (congrArg Prod.snd hb).symm
      refine ⟨1, by simp, ?_, by simp⟩
      simp [hw1, World.log]

/-! ### The history of one `Pipeline.Build` call -/

theorem hookSegment_props (k : HookKind) (l : List Nat) :
    (l.map (Event.hook k)).filterMap (Event.hookId k) = l ∧
      (∀ k1, k1 ≠ k → (l.map (Event.hook k)).filterMap (Event.hookId k1) = []) ∧
      (l.map (Event.hook k)).filterMap Event.instantiated = [] ∧
      (l.map (Event.hook k)).filter Event.isAdd = [] := by
  induction l with
  | nil => simp
  | cons x xs ih =>
    obtain ⟨h1, h2, h3, h4⟩ := ih
    refine ⟨by simp [Event.hookId, h1], fun k1 hk => ?_, by simp [Event.instantiated, h3],
      by simp [Event.isAdd, h4]⟩
    have := h2 k1 hk
    simp only [List.map_cons, List.filterMap_cons, Event.hookId, this]
    rw [if_neg (fun h => hk h.symm)]

theorem newPipelineSegment_props (l : List String) :
    (∀ k, (l.map Event.newPipeline).filterMap (Event.hookId k) = []) ∧
      (l.map Event.newPipeline).filterMap Event.instantiated = [] ∧
      (l.map Event.newPipeline).filter Event.isAdd = [] := by
  induction l with
  | nil => simp
  | cons x xs ih =>
    obtain ⟨h1, h2, h3⟩ := ih
    exact ⟨fun k => by simp [Event.hookId, h1 k], by simp [Event.instantiated, h2],
      by simp [Event.isAdd, h3]⟩

theorem elementBuild_props (ev : Event) (h : ev.isElementBuild = true) :
    ev.buildPhase = 2 ∧ (∀ k, ev.hookId k = none) ∧ ev.isAdd = false := by
  cases ev <;> simp_all [Event.isElementBuild, Event.buildPhase, Event.hookId, Event.isAdd]

theorem add_props (ev : Event) (h : ev.isAdd = true) :
    ev.buildPhase = 3 ∧ (∀ k, ev.hookId k = none) ∧ ev.instantiated = none := by
  cases ev <;> simp_all [Event.isAdd, Event.buildPhase, Event.hookId, Event.instantiated]

theorem pairwise_phase_const (l : List Event) (n : Nat) (h : ∀ ev ∈ l, ev.buildPhase = n) :
    l.Pairwise (fun a b => a.buildPhase ≤ b.buildPhase) :=
  List.pairwise_of_forall_mem_list fun a ha b hb => by rw [h a ha, h b hb]

theorem pairwise_phase_append (l1 l2 : List Event) (n : Nat)
    (h1 : l1.Pairwise (fun a b => a.buildPhase ≤ b.buildPhase)) (hle : ∀ ev ∈ l1, ev.buildPhase ≤ n)
    (h2 : ∀ ev ∈ l2, ev.buildPhase = n) :
    (l1 ++ l2).Pairwise (fun a b => a.buildPhase ≤ b.buildPhase) ∧
      ∀ ev ∈ l1 ++ l2, ev.buildPhase ≤ n := by
  refine ⟨List.pairwise_append.mpr ⟨h1, pairwise_phase_const l2 n h2, fun a ha b hb => ?_⟩, ?_⟩
  · rw [h2 b hb]
    exact hle a ha
  · intro ev hev
    rcases List.mem_append.mp hev with h | h
    · exact hle ev h
    · exact le_of_eq (h2 ev h)

/-- The shape of the calls of one `Pipeline.Build`: `Prepare` hooks on `As`,
then at most one pipeline creation, then node-build calls `C`, then additions
`D`, then `Build` hooks on `Es`.  From the conditions under which each segment
can be non-empty follow the ordering and completeness facts of the phases. -/
theorem buildLog_props (ps0 ps1 As Es : List Nat) (Bs : List String) (C D adds : List Event)
    (names : List (String × String)) (allBuilt : Prop)
    (hC : ∀ ev ∈ C, ev.isElementBuild = true) (hD : ∀ ev ∈ D, ev.isAdd = true)
    (hAs : As <+: ps0) (hAfull : Bs ≠ [] ∨ C ≠ [] ∨ D ≠ [] ∨ Es ≠ [] → As = ps0)
    (hsub : (C.filterMap Event.instantiated).Sublist names)
    (hbuilt : D ≠ [] ∨ Es ≠ [] → allBuilt)
    (hDp : D <+: adds) (hDfull : Es ≠ [] → D = adds) (hEs : Es <+: ps1)
    (evs : List Event)
    (hevs : evs = As.map (Event.hook .Prepare) ++ Bs.map Event.newPipeline ++ C ++ D ++
      Es.map (Event.hook .Build)) :
    evs.Pairwise (fun a b => a.buildPhase ≤ b.buildPhase) ∧
      (∀ ev ∈ evs, ev.buildPhase ≤ 4) ∧
      evs.filterMap (Event.hookId .Prepare) <+: ps0 ∧
      ((∃ ev ∈ evs, 1 ≤ ev.buildPhase) → evs.filterMap (Event.hookId .Prepare) = ps0) ∧
      (evs.filterMap Event.instantiated).Sublist names ∧
      ((∃ ev ∈ evs, 3 ≤ ev.buildPhase) → allBuilt) ∧
      evs.filter Event.isAdd <+: adds ∧
      ((∃ ev ∈ evs, 4 ≤ ev.buildPhase) → evs.filter Event.isAdd = adds) ∧
      evs.filterMap (Event.hookId .Build) <+: ps1 ∧
      evs.filterMap (Event.hookId .Prepare) = As ∧
      evs.filter Event.isAdd = D ∧
      evs.filterMap (Event.hookId .Build) = Es := by
  have pA : ∀ ev ∈ As.map (Event.hook .Prepare), ev.buildPhase = 0 := by
    intro ev hev
    obtain ⟨id, -, rfl⟩ := List.mem_map.mp hev
    rfl
  have pB : ∀ ev ∈ Bs.map Event.newPipeline, ev.buildPhase = 1 := by
    intro ev hev
    obtain ⟨id, -, rfl⟩ := List.mem_map.mp hev
    rfl
  have pC : ∀ ev ∈ C, ev.buildPhase = 2 := fun ev hev => (elementBuild_props ev (hC ev hev)).1
  have pD : ∀ ev ∈ D, ev.buildPhase = 3 := fun ev hev => (add_props ev (hD ev hev)).1
  have pE : ∀ ev ∈ Es.map (Event.hook .Build), ev.buildPhase = 4 := by
    intro ev hev
    obtain ⟨id, -, rfl⟩ := List.mem_map.mp hev
    rfl
  have q1 := pairwise_phase_append _ _ 1 (pairwise_phase_const _ 0 pA)
    (fun ev hev => by rw [pA ev hev]; exact Nat.zero_le _) pB
  have q2 := pairwise_phase_append _ _ 2 q1.1 (fun ev hev => (q1.2 ev hev).trans (by decide)) pC
  have q3 := pairwise_phase_append _ _ 3 q2.1 (fun ev hev => (q2.2 ev hev).trans (by decide)) pD
  have q4 := pairwise_phase_append _ _ 4 q3.1 (fun ev hev => (q3.2 ev hev).trans (by decide)) pE
  obtain ⟨a1, a2, a3, a4⟩ := hookSegment_props .Prepare As
  obtain ⟨e1, e2, e3, e4⟩ := hookSegment_props .Build Es
  obtain ⟨b1, b2, b3⟩ := newPipelineSegment_props Bs
  have c1 : ∀ k, C.filterMap (Event.hookId k) = [] := fun k =>
    List.filterMap_eq_nil_iff.mpr fun ev hev => (elementBuild_props ev (hC ev hev)).2.1 k
  have c2 : C.filter Event.isAdd = [] :=
    List.filter_eq_nil_iff.mpr fun ev hev => by simp [(elementBuild_props ev (hC ev hev)).2.2]
  have d1 : ∀ k, D.filterMap (Event.hookId k) = [] := fun k =>
    List.filterMap_eq_nil_iff.mpr fun ev hev => (add_props ev (hD ev hev)).2.1 k
  have d2 : D.filterMap Event.instantiated = [] :=
    List.filterMap_eq_nil_iff.mpr fun ev hev => (add_props ev (hD ev hev)).2.2
  have d3 : D.filter Event.isAdd = D := List.filter_eq_self.mpr hD
  have fP : evs.filterMap (Event.hookId .Prepare) = As := by
    rw [hevs]
    simp [List.filterMap_append, a1, b1, c1, d1, e2 .Prepare (by decide)]
  have fI : evs.filterMap Event.instantiated = C.filterMap Event.instantiated := by
    rw [hevs]
    simp [List.filterMap_append, a3, b2, d2, e3]
  have fA : evs.filter Event.isAdd = D := by
    rw [hevs]
    simp [List.filter_append, a4, b3, c2, d3, e4]
  have fB : evs.filterMap (Event.hookId .Build) = Es := by
    rw [hevs]
    simp [List.filterMap_append, a2 .Build (by decide), b1, c1, d1, e1]
  have mem : ∀ ev ∈ evs, ev ∈ As.map (Event.hook .Prepare) ∨ ev ∈ Bs.map Event.newPipeline ∨
      ev ∈ C ∨ ev ∈ D ∨ ev ∈ Es.map (Event.hook .Build) := by
    intro ev hev
    rw [hevs] at hev
    simp only [List.mem_append] at hev
    tauto
  have ne_of_mem : ∀ {α : Type} (l : List α) (x : α), x ∈ l → l ≠ [] := by
    intro α l x hx h
    rw [h] at hx
    exact List.not_mem_nil _ hx
  have neE : ∀ ev ∈ Es.map (Event.hook .Build), Es ≠ [] := by
    intro ev hev h
    rw [h] at hev
    exact List.not_mem_nil _ hev
  have neB : ∀ ev ∈ Bs.map Event.newPipeline, Bs ≠ [] := by
    intro ev hev h
    rw [h] at hev
    exact List.not_mem_nil _ hev
  refine ⟨by rw [hevs]; exact q4.1, by rw [hevs]; exact q4.2, by rw [fP]; exact hAs, ?_,
    by rw [fI]; exact hsub, ?_, by rw [fA]; exact hDp, ?_, by rw [fB]; exact hEs, fP, fA, fB⟩
  · rintro ⟨ev, hev, hph⟩
    rw [fP]
    apply hAfull
    rcases mem ev hev with h | h | h | h | h
    · rw [pA ev h] at hph
      exact absurd hph (by decide)
    · exact Or.inl (neB ev h)
    · exact Or.inr (Or.inl (ne_of_mem _ _ h))
    · exact Or.inr (Or.inr (Or.inl (ne_of_mem _ _ h)))
    · exact Or.inr (Or.inr (Or.inr (neE ev h)))
  · rintro ⟨ev, hev, hph⟩
    apply hbuilt
    rcases mem ev hev with h | h | h | h | h
    · rw [pA ev h] at hph
      exact absurd hph (by decide)
    · rw [pB ev h] at hph
      exact absurd hph (by decide)
    · rw [pC ev h] at hph
      exact absurd hph (by decide)
    · exact Or.inl (ne_of_mem _ _ h)
    · exact Or.inr (neE ev h)
  · rintro ⟨ev, hev, hph⟩
    rw [fA]
    apply hDfull
    rcases mem ev hev with h | h | h | h | h
    · rw [pA ev h] at hph
      exact absurd hph (by decide)
    · rw [pB ev h] at hph
      exact absurd hph (by decide)
    · rw [pC ev h] at hph
      exact absurd hph (by decide)
    · rw [pD ev h] at hph
      exact absurd hph (by decide)
    · exact neE ev h

/-- The history and outcome of one `Pipeline.Build` call on an un-built
container, phase by phase. -/
theorem Pipeline.Build_log (env : Env) (w : World) (hb : w.p.built = false) :
    ∃ evs : List Event,
      (Pipeline.Build env w).2.trace = w.trace ++ evs ∧
      evs.Pairwise (fun a b => a.buildPhase ≤ b.buildPhase) ∧
      (∀ ev ∈ evs, ev.buildPhase ≤ 4) ∧
      evs.filterMap (Event.hookId .Prepare) <+: w.p.partials ∧
      ((∃ ev ∈ evs, 1 ≤ ev.buildPhase) → evs.filterMap (Event.hookId .Prepare) = w.p.partials) ∧
      (evs.filterMap Event.instantiated).Sublist
        ((Pipeline.afterPrepare env w).p.elements.map
          fun e => ((w.heap e).Factory, (w.heap e).Name)) ∧
      ((∃ ev ∈ evs, 3 ≤ ev.buildPhase) → ∀ e ∈ (Pipeline.afterPrepare env w).p.elements,
        (((Pipeline.Build env w).2.heap e).el).isSome = true) ∧
      evs.filter Event.isAdd <+:
        expectedAdds (Pipeline.Build env w).2 (Pipeline.afterPrepare env w).p.elements ∧
      ((∃ ev ∈ evs, 4 ≤ ev.buildPhase) → evs.filter Event.isAdd =
        expectedAdds (Pipeline.Build env w).2 (Pipeline.afterPrepare env w).p.elements) ∧
      evs.filterMap (Event.hookId .Build) <+: (Pipeline.afterPrepare env w).p.partials ∧
      ((Pipeline.Build env w).2.p.built = true ↔ (Pipeline.Build env w).1 = none) ∧
      ((Pipeline.Build env w).1 = none →
        evs.filterMap (Event.hookId .Prepare) = w.p.partials ∧
        (∀ e ∈ (Pipeline.afterPrepare env w).p.elements,
          (((Pipeline.Build env w).2.heap e).el).isSome = true) ∧
        evs.filter Event.isAdd =
          expectedAdds (Pipeline.Build env w).2 (Pipeline.afterPrepare env w).p.elements ∧
        evs.filterMap (Event.hookId .Build) = (Pipeline.afterPrepare env w).p.partials) ∧
      ((Pipeline.Build env w).1 = none → ∃ pl, (Pipeline.Build env w).2.p.pipeline = some pl) ∧
      w.p.elements <+: (Pipeline.afterPrepare env w).p.elements := by
  obtain ⟨a, ha, hfr0, hnone0, -⟩ := hookLoop_spec env .Prepare w.p.partials w
  generalize hr : Pipeline.Build env w = r
  unfold Pipeline.afterPrepare
  unfold Pipeline.Build at hr
  simp only [hb, Bool.false_eq_true, if_false] at hr
  rcases h0 : forEach (callHook env .Prepare) w.p.partials w with ⟨_ | err, w1⟩
  case mk.some =>
    -- a `Prepare` hook failed
    rw [h0] at hr hfr0
    simp only at hr hfr0 ⊢
    subst hr
    obtain ⟨f1, -, f3, -, f5, f6, -, f8, -, -⟩ := hfr0
    simp only at f1 f3 f5 f6 f8
    obtain ⟨g1, g2, g3, g4, g5, g6, g7, g8, g9, -, -, -⟩ :=
      buildLog_props w.p.partials w1.p.partials (w.p.partials.take a) [] [] [] []
        (expectedAdds w1 w1.p.elements)
        (w1.p.elements.map fun e => ((w.heap e).Factory, (w.heap e).Name))
        (∀ e ∈ w1.p.elements, ((w1.heap e).el).isSome = true)
        (by simp) (by simp) (List.take_prefix _ _) (by simp) (by simp) (by simp) (by simp)
        (by simp) (by simp)
        ((w.p.partials.take a).map (Event.hook .Prepare)) (by simp)
    exact ⟨_, f3, g1, g2, g3, g4, g5, g6, g7, g8, g9, by simp [f6, hb], by simp, by simp, f8⟩
  rw [h0] at hr hfr0 hnone0
  simp only at hr hfr0 hnone0 ⊢
  have ha' : w.p.partials.take a = w.p.partials := by
    rw [hnone0 trivial, List.take_length]
  rw [ha'] at hfr0
  obtain ⟨f1, -, f3, f4, f5, f6, -, f8, -, -⟩ := hfr0
  simp only at f1 f3 f4 f5 f6 f8
  cases hnp : env.NewPipeline w1.trace w1.p.name with
  | error err =>
    -- the engine pipeline could not be created
    rw [hnp] at hr
    simp only at hr
    subst hr
    simp only [World.log]
    obtain ⟨g1, g2, g3, g4, g5, g6, g7, g8, g9, -, -, -⟩ :=
      buildLog_props w.p.partials w1.p.partials w.p.partials [] [w1.p.name] [] []
        (expectedAdds { w1 with trace := w1.trace ++ [Event.newPipeline w1.p.name],
                                p := { w1.p with pipeline := none } } w1.p.elements)
        (w1.p.elements.map fun e => ((w.heap e).Factory, (w.heap e).Name))
        (∀ e ∈ w1.p.elements, ((w1.heap e).el).isSome = true)
        (by simp) (by simp) (List.prefix_refl _) (by simp) (by simp) (by simp) (by simp)
        (by simp) (by simp)
        (w.p.partials.map (Event.hook .Prepare) ++ [Event.newPipeline w1.p.name]) (by simp)
    exact ⟨_, by rw [f3, List.append_assoc], g1, g2, g3, g4, g5, g6, g7, g8, g9,
      by simp [f6, hb], by simp, by simp, f8⟩
  | ok pl =>
    rw [hnp] at hr
    simp only at hr
    obtain ⟨hbf, hall⟩ := buildLoop_spec env w1.p.elements
      { w1 with trace := w1.trace ++ [Event.newPipeline w1.p.name],
                p := { w1.p with pipeline := some pl } }
    split at hr
    · -- a node could not be built
      rename_i err w4 h4
      rw [show forEach (Element.Build env) w1.p.elements
          { w1 with trace := w1.trace ++ [Event.newPipeline w1.p.name],
                    p := { w1.p with pipeline := some pl } } = (some err, w4) from h4] at hbf
      subst hr
      obtain ⟨b1, -, -, -, C, b5, b6, b7⟩ := hbf
      simp only at b1 b5 b7 ⊢
      obtain ⟨g1, g2, g3, g4, g5, g6, g7, g8, g9, -, -, -⟩ :=
        buildLog_props w.p.partials w1.p.partials w.p.partials [] [w1.p.name] C []
          (expectedAdds w4 w1.p.elements)
          (w1.p.elements.map fun e => ((w.heap e).Factory, (w.heap e).Name))
          (∀ e ∈ w1.p.elements, ((w4.heap e).el).isSome = true)
          b6 (by simp) (List.prefix_refl _) (by simp) (by rw [← f1]; exact b7) (by simp)
          (by simp) (by simp) (by simp)
          (w.p.partials.map (Event.hook .Prepare) ++ [Event.newPipeline w1.p.name] ++ C)
          (by simp)
      exact ⟨_, by rw [b5, f3]; simp, g1, g2, g3, g4, g5, g6, g7, g8, g9,
        by simp [b1, f6, hb], by simp, by simp, f8⟩
    · rename_i w4 h4
      rw [show forEach (Element.Build env) w1.p.elements
          { w1 with trace := w1.trace ++ [Event.newPipeline w1.p.name],
                    p := { w1.p with pipeline := some pl } } = (none, w4) from h4] at hbf hall
      obtain ⟨b1, -, -, -, C, b5, b6, b7⟩ := hbf
      simp only at b1 b5 b7 hall
      have hall' := hall trivial
      have hes : w4.p.elements = w1.p.elements := by rw [b1]
      have hps : w4.p.partials = w1.p.partials := by rw [b1]
      have hpl : w4.p.pipeline = some pl := by rw [b1]
      have hbl : w4.p.built = false := by rw [b1]; simpa [hb] using f6
      obtain ⟨d, hd, h5eq, h5none⟩ := addLoop_spec env pl w4.p.elements w4
      split at hr
      · -- a node could not be added
        rename_i err w5 h5
        rw [h5] at h5eq
        simp only at h5eq
        subst hr
        subst h5eq
        simp only
        have hadds : expectedAdds { w4 with trace := (w4.trace ++ List.map
              (fun e => Event.pipelineAdd pl (w4.heap e).el) (List.take d w4.p.elements)) }
            w1.p.elements = w1.p.elements.map (fun e => Event.pipelineAdd pl (w4.heap e).el) := by
          simp [expectedAdds, hpl]
        obtain ⟨g1, g2, g3, g4, g5, g6, g7, g8, g9, -, -, -⟩ :=
          buildLog_props w.p.partials w1.p.partials w.p.partials [] [w1.p.name] C
            ((w1.p.elements.take d).map (fun e => Event.pipelineAdd pl (w4.heap e).el))
            (w1.p.elements.map (fun e => Event.pipelineAdd pl (w4.heap e).el))
            (w1.p.elements.map fun e => ((w.heap e).Factory, (w.heap e).Name))
            (∀ e ∈ w1.p.elements, ((w4.heap e).el).isSome = true)
            b6 (fun ev hev => by obtain ⟨e, -, rfl⟩ := List.mem_map.mp hev; rfl) (List.prefix_refl _) (by simp)
            (by rw [← f1]; exact b7) (fun _ => hall')
            (by rw [List.map_take]; exact List.take_prefix _ _) (by simp) (by simp)
            (w.p.partials.map (Event.hook .Prepare) ++ [Event.newPipeline w1.p.name] ++ C ++
              (w1.p.elements.take d).map (fun e => Event.pipelineAdd pl (w4.heap e).el))
            (by simp)
        rw [hadds]
        exact ⟨_, by rw [b5, f3, hes]; simp, g1, g2, g3, g4, g5, g6, g7, g8, g9,
          by simp [hbl], by simp, by simp, f8⟩
      · rename_i w5 h5
        rw [h5] at h5eq h5none
        simp only at h5eq h5none
        have hd' : w1.p.elements.take d = w1.p.elements := by
          rw [h5none trivial, hes, List.take_length]
        rw [hes, hd'] at h5eq
        subst h5eq
        simp only at hr
        obtain ⟨j, hj, hfr6, h6none, -⟩ := hookLoop_spec env .Build w4.p.partials
          { w4 with trace := (w4.trace ++ List.map
              (fun e => Event.pipelineAdd pl (w4.heap e).el) w1.p.elements) }
        simp only at hfr6 h6none
        split at hr
        · -- a `Build` hook failed
          rename_i err w6 h6
          rw [h6] at hfr6
          subst hr
          obtain ⟨k1, -, k3, -, k5, k6, -, -, -, -⟩ := hfr6
          simp only at k1 k3 k5 k6 ⊢
          have hadds : expectedAdds w6 w1.p.elements =
              w1.p.elements.map (fun e => Event.pipelineAdd pl (w4.heap e).el) := by
            simp [expectedAdds, k5, hpl, k1]
          obtain ⟨g1, g2, g3, g4, g5, g6, g7, g8, g9, -, -, -⟩ :=
            buildLog_props w.p.partials w1.p.partials w.p.partials (w1.p.partials.take j)
              [w1.p.name] C
              (w1.p.elements.map (fun e => Event.pipelineAdd pl (w4.heap e).el))
              (w1.p.elements.map (fun e => Event.pipelineAdd pl (w4.heap e).el))
              (w1.p.elements.map fun e => ((w.heap e).Factory, (w.heap e).Name))
              (∀ e ∈ w1.p.elements, ((w4.heap e).el).isSome = true)
              b6 (fun ev hev => by obtain ⟨e, -, rfl⟩ := List.mem_map.mp hev; rfl) (List.prefix_refl _) (by simp)
              (by rw [← f1]; exact b7) (fun _ => hall')
              (List.prefix_refl _) (by simp) (List.take_prefix _ _)
              (w.p.partials.map (Event.hook .Prepare) ++ [Event.newPipeline w1.p.name] ++ C ++
                w1.p.elements.map (fun e => Event.pipelineAdd pl (w4.heap e).el) ++
                (w1.p.partials.take j).map (Event.hook .Build))
              (by simp)
          rw [hadds, k1]
          exact ⟨_, by rw [k3, b5, f3, hps]; simp, g1, g2, g3, g4, g5, g6, g7, g8, g9,
            by simp [k6, hbl], by simp, by simp, f8⟩
        · -- every step succeeded
          rename_i w6 h6
          rw [h6] at hfr6 h6none
          subst hr
          have hj' : w1.p.partials.take j = w1.p.partials := by
            rw [h6none rfl, hps, List.take_length]
          rw [hps, hj'] at hfr6
          obtain ⟨k1, -, k3, -, k5, k6, -, -, -, -⟩ := hfr6
          simp only at k1 k3 k5 k6 ⊢
          have hadds : expectedAdds { w6 with p := { w6.p with built := true } } w1.p.elements =
              w1.p.elements.map (fun e => Event.pipelineAdd pl (w4.heap e).el) := by
            simp [expectedAdds, k5, hpl, k1]
          obtain ⟨g1, g2, g3, g4, g5, g6, g7, g8, g9, g10, g11, g12⟩ :=
            buildLog_props w.p.partials w1.p.partials w.p.partials w1.p.partials
              [w1.p.name] C
              (w1.p.elements.map (fun e => Event.pipelineAdd pl (w4.heap e).el))
              (w1.p.elements.map (fun e => Event.pipelineAdd pl (w4.heap e).el))
              (w1.p.elements.map fun e => ((w.heap e).Factory, (w.heap e).Name))
              (∀ e ∈ w1.p.elements, ((w4.heap e).el).isSome = true)
              b6 (fun ev hev => by obtain ⟨e, -, rfl⟩ := List.mem_map.mp hev; rfl) (List.prefix_refl _) (by simp)
              (by rw [← f1]; exact b7) (fun _ => hall')
              (List.prefix_refl _) (by simp) (List.prefix_refl _)
              (w.p.partials.map (Event.hook .Prepare) ++ [Event.newPipeline w1.p.name] ++ C ++
                w1.p.elements.map (fun e => Event.pipelineAdd pl (w4.heap e).el) ++
                w1.p.partials.map (Event.hook .Build))
              (by simp)
          rw [hadds, k1]
          exact ⟨_, by rw [k3, b5, f3]; simp, g1, g2, g3, g4, g5, g6, g7, g8, g9,
            by simp, fun _ => ⟨g10, hall', g11, g12⟩, fun _ => ⟨pl, by simp [k5, hpl]⟩, f8⟩

/-- When `Pipeline.Build` returns nil on an un-built container, each of its
five steps returned without error, and the state it leaves is the one its last
loop left, with `built` set. -/
theorem Pipeline.Build_steps (env : Env) (w : World) (hb : w.p.built = false)
    (hok : (Pipeline.Build env w).1 = none) :
    ∃ pl, (forEach (callHook env .Prepare) w.p.partials w).1 = none ∧
      env.NewPipeline (Pipeline.afterPrepare env w).trace (Pipeline.afterPrepare env w).p.name =
        .ok pl ∧
      (forEach (Element.Build env) (Pipeline.afterCreate env w pl).p.elements
        (Pipeline.afterCreate env w pl)).1 = none ∧
      (forEach (Pipeline.addElement env pl) (Pipeline.afterNodes env w pl).p.elements
        (Pipeline.afterNodes env w pl)).1 = none ∧
      (forEach (callHook env .Build) (Pipeline.afterAdds env w pl).p.partials
        (Pipeline.afterAdds env w pl)).1 = none ∧
      (Pipeline.Build env w).2.p.pipeline =
        (forEach (callHook env .Build) (Pipeline.afterAdds env w pl).p.partials
          (Pipeline.afterAdds env w pl)).2.p.pipeline := by
  have key : ∀ r, Pipeline.Build env w = r → r.1 = none →
      ∃ pl, (forEach (callHook env .Prepare) w.p.partials w).1 = none ∧
        env.NewPipeline (Pipeline.afterPrepare env w).trace
          (Pipeline.afterPrepare env w).p.name = .ok pl ∧
        (forEach (Element.Build env) (Pipeline.afterCreate env w pl).p.elements
          (Pipeline.afterCreate env w pl)).1 = none ∧
        (forEach (Pipeline.addElement env pl) (Pipeline.afterNodes env w pl).p.elements
          (Pipeline.afterNodes env w pl)).1 = none ∧
        (forEach (callHook env .Build) (Pipeline.afterAdds env w pl).p.partials
          (Pipeline.afterAdds env w pl)).1 = none ∧
        r.2.p.pipeline =
          (forEach (callHook env .Build) (Pipeline.afterAdds env w pl).p.partials
            (Pipeline.afterAdds env w pl)).2.p.pipeline := by
    intro r hr hrn
    unfold Pipeline.Build at hr
    simp only [hb, Bool.false_eq_true, if_false] at hr
    split at hr
    · subst hr
      simp at hrn
    · rename_i w1 h1
      have hap : Pipeline.afterPrepare env w = w1 := by
        unfold Pipeline.afterPrepare
        rw [h1]
      split at hr
      · subst hr
        simp at hrn
      · rename_i pl hnp
        refine ⟨pl, by rw [h1], by rw [hap]; exact hnp, ?_⟩
        split at hr
        · subst hr
          simp at hrn
        · rename_i w4 h4
          have hac : forEach (Element.Build env) (Pipeline.afterCreate env w pl).p.elements
              (Pipeline.afterCreate env w pl) = (none, w4) := by
            unfold Pipeline.afterCreate
            rw [hap]
            exact h4
          have han : Pipeline.afterNodes env w pl = w4 := by
            unfold Pipeline.afterNodes
            rw [hac]
          refine ⟨by rw [hac], ?_⟩
          split at hr
          · subst hr
            simp at hrn
          · rename_i w5 h5
            have haa : Pipeline.afterAdds env w pl = w5 := by
              unfold Pipeline.afterAdds
              rw [han, h5]
            refine ⟨by rw [han, h5], ?_⟩
            split at hr
            · subst hr
              simp at hrn
            · rename_i w6 h6
              subst hr
              rw [haa, h6]
              exact ⟨rfl, rfl⟩
  exact key _ rfl hok

/-- When `Pipeline.Build` returns nil on an un-built container, every single
step returned without error: every `Prepare` hook, the creation of the engine
pipeline, every node build, every addition, and every `Build` hook, each in the
state in which `Build` reached it. -/
theorem Pipeline.Build_every_step (env : Env) (w : World) (hb : w.p.built = false)
    (hok : (Pipeline.Build env w).1 = none) :
    ∃ pl, (Pipeline.Build env w).2.p.pipeline = some pl ∧
      env.NewPipeline (Pipeline.afterPrepare env w).trace (Pipeline.afterPrepare env w).p.name =
        .ok pl ∧
      (∀ ps q rest, w.p.partials = ps ++ q :: rest →
        ((env.hooks q).hook .Prepare
          ((forEach (callHook env .Prepare) ps w).2.log (.hook .Prepare q))).err = none) ∧
      (∀ xs x rest, (Pipeline.afterPrepare env w).p.elements = xs ++ x :: rest →
        (Element.Build env x
          (forEach (Element.Build env) xs (Pipeline.afterCreate env w pl)).2).1 = none) ∧
      (∀ xs x rest, (Pipeline.afterPrepare env w).p.elements = xs ++ x :: rest →
        env.Add (forEach (Pipeline.addElement env pl) xs (Pipeline.afterNodes env w pl)).2.trace
          pl ((forEach (Pipeline.addElement env pl) xs
            (Pipeline.afterNodes env w pl)).2.heap x).el = none) ∧
      (∀ ps q rest, (Pipeline.afterPrepare env w).p.partials = ps ++ q :: rest →
        ((env.hooks q).hook .Build
          ((forEach (callHook env .Build) ps (Pipeline.afterAdds env w pl)).2.log
            (.hook .Build q))).err = none) := by
  obtain ⟨pl, s1, s2, s3, s4, s5, s6⟩ := Pipeline.Build_steps env w hb hok
  have e1 : (Pipeline.afterCreate env w pl).p.elements = (Pipeline.afterPrepare env w).p.elements :=
    rfl
  have e2 : (Pipeline.afterNodes env w pl).p = (Pipeline.afterCreate env w pl).p :=
    (buildLoop_spec env _ (Pipeline.afterCreate env w pl)).1.1
  obtain ⟨d, -, e3, -⟩ := addLoop_spec env pl (Pipeline.afterNodes env w pl).p.elements
    (Pipeline.afterNodes env w pl)
  have e4 : (Pipeline.afterAdds env w pl).p = (Pipeline.afterNodes env w pl).p := by
    unfold Pipeline.afterAdds
    rw [e3]
  obtain ⟨n, -, hfr, -, -⟩ := hookLoop_spec env .Build (Pipeline.afterAdds env w pl).p.partials
    (Pipeline.afterAdds env w pl)
  have e5 : (Pipeline.Build env w).2.p.pipeline = some pl := by
    rw [s6, hfr.2.2.2.2.1]
    show (Pipeline.afterAdds env w pl).p.pipeline = some pl
    rw [e4, e2]
    rfl
  refine ⟨pl, e5, s2, ?_, ?_, ?_, ?_⟩
  · intro ps q rest hps
    rw [hps] at s1
    exact (forEach_append_ok (callHook env .Prepare) ps q rest w s1).2
  · intro xs x rest hxs
    rw [e1, hxs] at s3
    exact (forEach_append_ok (Element.Build env) xs x rest _ s3).2
  · intro xs x rest hxs
    rw [e2, e1, hxs] at s4
    exact (forEach_append_ok (Pipeline.addElement env pl) xs x rest _ s4).2
  · intro ps q rest hps
    have e6 : (Pipeline.afterAdds env w pl).p.partials = (Pipeline.afterPrepare env w).p.partials := by
      rw [e4, e2]
      rfl
    rw [e6, hps] at s5
    exact (forEach_append_ok (callHook env .Build) ps q rest _ s5).2

/-- C5: the outgoing calls of one `Pipeline.Build` on an un-built container
come in phases, in this order: `Prepare` hooks, creation of the engine
pipeline, node builds, additions to the engine pipeline, `Build` hooks.
`Prepare` is invoked on the registered sub-pipelines in registration order, on
all of them before anything else happens; the nodes registered by the end of
the `Prepare` phase are instantiated in registration order and all have their
handle before the first addition; they are added in registration order, all of
them before the first `Build` hook; the `Build` hooks run in registration
order; and `built` is true afterwards exactly when `Build` returned nil, in
which case every phase ran to completion.  Moreover `built` is true afterwards
only if every step succeeded: every `Prepare` hook returned nil, the engine
created the pipeline, every node build returned nil, the engine accepted every
addition, and every `Build` hook returned nil, each in the state in which
`Build` reached it. -/
theorem C5_build_phases (env : Env) (w : World) (hb : w.p.built = false) :
    ∃ evs : List Event,
      (Pipeline.Build env w).2.trace = w.trace ++ evs ∧
      evs.Pairwise (fun a b => a.buildPhase ≤ b.buildPhase) ∧
      (∀ ev ∈ evs, ev.buildPhase ≤ 4) ∧
      evs.filterMap (Event.hookId .Prepare) <+: w.p.partials ∧
      ((∃ ev ∈ evs, 1 ≤ ev.buildPhase) → evs.filterMap (Event.hookId .Prepare) = w.p.partials) ∧
      (evs.filterMap Event.instantiated).Sublist
        ((Pipeline.afterPrepare env w).p.elements.map
          fun e => ((w.heap e).Factory, (w.heap e).Name)) ∧
      ((∃ ev ∈ evs, 3 ≤ ev.buildPhase) → ∀ e ∈ (Pipeline.afterPrepare env w).p.elements,
        (((Pipeline.Build env w).2.heap e).el).isSome = true) ∧
      evs.filter Event.isAdd <+:
        expectedAdds (Pipeline.Build env w).2 (Pipeline.afterPrepare env w).p.elements ∧
      ((∃ ev ∈ evs, 4 ≤ ev.buildPhase) → evs.filter Event.isAdd =
        expectedAdds (Pipeline.Build env w).2 (Pipeline.afterPrepare env w).p.elements) ∧
      evs.filterMap (Event.hookId .Build) <+: (Pipeline.afterPrepare env w).p.partials ∧
      ((Pipeline.Build env w).2.p.built = true ↔ (Pipeline.Build env w).1 = none) ∧
      ((Pipeline.Build env w).1 = none →
        evs.filterMap (Event.hookId .Prepare) = w.p.partials ∧
        (∀ e ∈ (Pipeline.afterPrepare env w).p.elements,
          (((Pipeline.Build env w).2.heap e).el).isSome = true) ∧
        evs.filter Event.isAdd =
          expectedAdds (Pipeline.Build env w).2 (Pipeline.afterPrepare env w).p.elements ∧
        evs.filterMap (Event.hookId .Build) = (Pipeline.afterPrepare env w).p.partials) ∧
      ((Pipeline.Build env w).2.p.built = true →
        ∃ pl, (Pipeline.Build env w).2.p.pipeline = some pl ∧
          env.NewPipeline (Pipeline.afterPrepare env w).trace
            (Pipeline.afterPrepare env w).p.name = .ok pl ∧
          (∀ ps q rest, w.p.partials = ps ++ q :: rest →
            ((env.hooks q).hook .Prepare
              ((forEach (callHook env .Prepare) ps w).2.log (.hook .Prepare q))).err = none) ∧
          (∀ xs x rest, (Pipeline.afterPrepare env w).p.elements = xs ++ x :: rest →
            (Element.Build env x
              (forEach (Element.Build env) xs (Pipeline.afterCreate env w pl)).2).1 = none) ∧
          (∀ xs x rest, (Pipeline.afterPrepare env w).p.elements = xs ++ x :: rest →
            env.Add
              (forEach (Pipeline.addElement env pl) xs (Pipeline.afterNodes env w pl)).2.trace
              pl ((forEach (Pipeline.addElement env pl) xs
                (Pipeline.afterNodes env w pl)).2.heap x).el = none) ∧
          (∀ ps q rest, (Pipeline.afterPrepare env w).p.partials = ps ++ q :: rest →
            ((env.hooks q).hook .Build
              ((forEach (callHook env .Build) ps (Pipeline.afterAdds env w pl)).2.log
                (.hook .Build q))).err = none)) := by
  obtain ⟨evs, h1, h2, h3, h4, h5, h6, h7, h8, h9, h10, h11, h12, -, -⟩ :=
    Pipeline.Build_log env w hb
  exact ⟨evs, h1, h2, h3, h4, h5, h6, h7, h8, h9, h10, h11, h12,
    fun hbt => Pipeline.Build_every_step env w hb (h11.mp hbt)⟩

/-- Witness for C5: on the sample container the `Prepare` hook of sub-pipeline
1 registers the decoder, and both nodes are built and added before the `Build`
hooks run. -/
theorem C5_build_phases_witness :
    sampleRegistered.p.built = false ∧
      (Pipeline.Build sampleEnv sampleRegistered).2.trace =
        [.hook .Prepare 1, .hook .Prepare 0, .newPipeline "segment-pipeline",
         .newElementWithName "filesrc" "source", .getPropertyType 103 "location",
         .elementSet 103 "location" (.str "video.mp4"),
         .newElementWithName "decodebin" "bin",
         .pipelineAdd 102 (some 103), .pipelineAdd 102 (some 106),
         .hook .Build 1, .hook .Build 0] ∧
      ∃ evs : List Event,
        (Pipeline.Build sampleEnv sampleRegistered).2.trace = sampleRegistered.trace ++ evs ∧
        evs.Pairwise (fun a b => a.buildPhase ≤ b.buildPhase) :=
  ⟨rfl, by decide,
    (C5_build_phases sampleEnv sampleRegistered rfl).imp fun _ h => ⟨h.1, h.2.1⟩⟩

/-! ### Nodes of a built container -/

theorem Populated.built_false {w : World} (h : Populated w) : w.p.built = false := by
  induction h with
  | new heap running trace name => rfl
  | addElements es w _ ih => exact ih
  | addPartialPipeline pp w _ ih => exact ih

/-- C10 (amended): if `Pipeline.Build` returns nil on a container created by
`NewPipeline` and populated with `AddElements` and `AddPartialPipeline`, then
every node registered by the end of the `Prepare` phase (every node registered
before the call, and every node a `Prepare` hook registered) has its handle,
and `Link` between any two such nodes calls the engine with their handles and
returns the engine's answer (the not-built guard does not fire). -/
theorem C10_build_success_builds_nodes (env : Env) (w : World) (hp : Populated w)
    (hok : (Pipeline.Build env w).1 = none) :
    (∀ e ∈ w.p.elements, e ∈ (Pipeline.afterPrepare env w).p.elements) ∧
      (∀ e ∈ (Pipeline.afterPrepare env w).p.elements,
        (((Pipeline.Build env w).2.heap e).el).isSome = true) ∧
      ∀ e ∈ (Pipeline.afterPrepare env w).p.elements,
        ∀ other ∈ (Pipeline.afterPrepare env w).p.elements, ∃ a b,
          ((Pipeline.Build env w).2.heap e).el = some a ∧
          ((Pipeline.Build env w).2.heap other).el = some b ∧
          Element.Link env e other (Pipeline.Build env w).2 =
            (env.Link (Pipeline.Build env w).2.trace a b,
              (Pipeline.Build env w).2.log (.link a b)) := by
  obtain ⟨evs, -, -, -, -, -, -, -, -, -, -, -, hsucc, -, hpre⟩ :=
    Pipeline.Build_log env w hp.built_false
  have hall := (hsucc hok).2.1
  refine ⟨fun e he => hpre.subset he, hall, fun e he other ho => ?_⟩
  obtain ⟨a, ha⟩ := Option.isSome_iff_exists.mp (hall e he)
  obtain ⟨b, hb⟩ := Option.isSome_iff_exists.mp (hall other ho)
  exact ⟨a, b, ha, hb, by simp [Element.Link, ha, hb]⟩

/-- Witness for C10 (amended): on the sample container the file source was
registered by the caller and the decoder by the `Prepare` hook of sub-pipeline
1; after `Build` both have their handles and `Link` from the source to the
decoder reaches the engine. -/
theorem C10_build_success_builds_nodes_witness :
    (Pipeline.Build sampleEnv sampleRegistered).1 = none ∧
      (Pipeline.afterPrepare sampleEnv sampleRegistered).p.elements = [0, 1] ∧
      (Element.Link sampleEnv 0 1 (Pipeline.Build sampleEnv sampleRegistered).2).1 = none ∧
      (Element.Link sampleEnv 0 1 (Pipeline.Build sampleEnv sampleRegistered).2).2.trace =
        (Pipeline.Build sampleEnv sampleRegistered).2.trace ++ [.link 103 106] ∧
      ∃ a b,
        ((Pipeline.Build sampleEnv sampleRegistered).2.heap 0).el = some a ∧
        ((Pipeline.Build sampleEnv sampleRegistered).2.heap 1).el = some b ∧
        Element.Link sampleEnv 0 1 (Pipeline.Build sampleEnv sampleRegistered).2 =
          (sampleEnv.Link (Pipeline.Build sampleEnv sampleRegistered).2.trace a b,
            (Pipeline.Build sampleEnv sampleRegistered).2.log (.link a b)) :=
  ⟨by decide, by decide, by decide, by decide,
    (C10_build_success_builds_nodes sampleEnv sampleRegistered
      (Populated.addElements _ _ (Populated.addPartialPipeline _ _
        (Populated.addPartialPipeline _ _
          (Populated.new sampleHeap (fun _ => false) [] "segment-pipeline"))))
      (by decide)).2.2 0 (by decide) 1 (by decide)⟩

/-- C10, as stated, fails: on the sample container with sub-pipeline 4, whose
`Build` hook registers the spare node, `Build` returns nil, the spare node is
registered on the container but was never built, and `Link` from the file
source to it fails with the not-built error without reaching the engine. -/
theorem C10_counterexample :
    Populated sampleLate ∧
      (Pipeline.Build sampleEnv sampleLate).1 = none ∧
      (Pipeline.Build sampleEnv sampleLate).2.p.built = true ∧
      (Pipeline.Build sampleEnv sampleLate).2.p.elements = [0, 6] ∧
      ((Pipeline.Build sampleEnv sampleLate).2.heap 0).el = some 102 ∧
      ((Pipeline.Build sampleEnv sampleLate).2.heap 6).el = none ∧
      (Element.Link sampleEnv 0 6 (Pipeline.Build sampleEnv sampleLate).2).1 =
        some errNotBuilt ∧
      (Element.Link sampleEnv 0 6 (Pipeline.Build sampleEnv sampleLate).2).2.trace =
        (Pipeline.Build sampleEnv sampleLate).2.trace :=
  ⟨Populated.addElements _ _ (Populated.addPartialPipeline _ _
      (Populated.new sampleHeap (fun _ => false) [] "segment-pipeline")),
    by decide, by decide, by decide, by decide, by decide, by decide, by decide⟩

/-! ### `Pipeline.Start` -/

/-- The watch loop of the bus closure invokes every registered watch on the
message, in order, and changes nothing else. -/
theorem watchLoop_spec (msg : Msg) (ws : List Nat) (w : World) :
    (forEach (callWatch msg) ws w).2 =
      { w with trace := w.trace ++ ws.map (fun f => Event.watch f msg) } := by
  induction ws generalizing w with
  | nil => simp [forEach]
  | cons x xs ih =>
    simp only [forEach, callWatch]
    rw [ih]
    simp [World.log]

theorem watchSegment_props (msg : Msg) (ws : List Nat) :
    (ws.map (fun f => Event.watch f msg)).filterMap Event.delivered = [] :=
  List.filterMap_eq_nil_iff.mpr fun ev hev => by
    obtain ⟨f, -, rfl⟩ := List.mem_map.mp hev
    rfl

/-- What the bus closure does with one message: it changes neither the
descriptors nor the container; the delivery is the only one it records; an
end-of-stream forces the engine pipeline to the null state and quits the loop,
keeping the captured error; an error message is captured and quits the loop;
any other message changes neither the captured error nor the loop. -/
theorem Pipeline.onMessage_spec (pl l : Nat) (m : Msg) (s : Option Err × World) :
    (Pipeline.onMessage pl l m s).2.heap = s.2.heap ∧
      (Pipeline.onMessage pl l m s).2.p = s.2.p ∧
      ∃ evs, (Pipeline.onMessage pl l m s).2.trace = s.2.trace ++ evs ∧
        evs.filterMap Event.delivered = [m] ∧
        (∀ t, m = .other t →
          (Pipeline.onMessage pl l m s).1 = s.1 ∧
          (Pipeline.onMessage pl l m s).2.running = s.2.running) ∧
        (m = .eos →
          (Pipeline.onMessage pl l m s).1 = s.1 ∧
          (Pipeline.onMessage pl l m s).2.running l = false ∧
          Event.blockSetState pl .StateNull ∈ evs ∧ Event.loopQuit l ∈ evs) ∧
        (∀ e d, m = .error e d →
          (Pipeline.onMessage pl l m s).1 = some e ∧
          (Pipeline.onMessage pl l m s).2.running l = false ∧ Event.loopQuit l ∈ evs) := by
  unfold Pipeline.onMessage
  cases m with
  | eos =>
    simp only [watchLoop_spec, MainLoop.Quit, World.log, List.append_assoc]
    refine ⟨trivial, trivial, _, rfl, ?_, by simp, ?_, by simp⟩
    · simp [List.filterMap_append, watchSegment_props, Event.delivered]
    · simp
  | error e d =>
    simp only [watchLoop_spec, MainLoop.Quit, World.log, List.append_assoc]
    refine ⟨trivial, trivial, _, rfl, ?_, by simp, by simp, ?_⟩
    · simp [List.filterMap_append, watchSegment_props, Event.delivered]
    · simp
  | other t =>
    simp only [watchLoop_spec, World.log, List.append_assoc]
    refine ⟨trivial, trivial, _, rfl, ?_, by simp, by simp, by simp⟩
    simp [List.filterMap_append, watchSegment_props, Event.delivered]

/-- The main loop changes neither the descriptors nor the container. -/
theorem MainLoop.dispatch_frame (pl l : Nat) (msgs : List Msg) (s : Option Err × World) :
    (MainLoop.dispatch pl l msgs s).2.heap = s.2.heap ∧
      (MainLoop.dispatch pl l msgs s).2.p = s.2.p := by
  induction msgs generalizing s with
  | nil => exact ⟨rfl, rfl⟩
  | cons m ms ih =>
    obtain ⟨h1, h2, -⟩ := Pipeline.onMessage_spec pl l m s
    simp only [MainLoop.dispatch]
    split
    · obtain ⟨i1, i2⟩ := ih (Pipeline.onMessage pl l m s)
      exact ⟨i1.trans h1, i2.trans h2⟩
    · exact ⟨h1, h2⟩

/-- A run of the main loop over messages none of which is an end-of-stream or
an error delivers all of them and captures no error. -/
theorem MainLoop.dispatch_others (pl l : Nat) (msgs : List Msg) (s : Option Err × World)
    (hrun : s.2.running l = true) (hpre : ∀ m ∈ msgs, m.isOther = true) :
    (MainLoop.dispatch pl l msgs s).1 = s.1 ∧
      (MainLoop.dispatch pl l msgs s).2.running l = true ∧
      ∃ evs, (MainLoop.dispatch pl l msgs s).2.trace = s.2.trace ++ evs ∧
        evs.filterMap Event.delivered = msgs := by
  induction msgs generalizing s with
  | nil => exact ⟨rfl, hrun, [], by simp [MainLoop.dispatch], rfl⟩
  | cons m ms ih =>
    obtain ⟨-, -, evs1, h3, h4, h5, -, -⟩ := Pipeline.onMessage_spec pl l m s
    have hm : m.isOther = true := hpre m (List.mem_cons_self _ _)
    obtain ⟨t, rfl⟩ : ∃ t, m = .other t := by
      cases m with
      | other t => exact ⟨t, rfl⟩
      | eos => simp [Msg.isOther] at hm
      | error e d => simp [Msg.isOther] at hm
    obtain ⟨h6, h7⟩ := h5 t rfl
    have hrun1 : (Pipeline.onMessage pl l (.other t) s).2.running l = true := by
      rw [h7]; exact hrun
    have hd : MainLoop.dispatch pl l (Msg.other t :: ms) s =
        MainLoop.dispatch pl l ms (Pipeline.onMessage pl l (.other t) s) := by
      simp only [MainLoop.dispatch, hrun1, if_true]
    rw [hd]
    obtain ⟨i1, i2, evs2, i3, i4⟩ := ih (Pipeline.onMessage pl l (.other t) s) hrun1
      (fun m hm => hpre m (List.mem_cons_of_mem _ hm))
    refine ⟨i1.trans h6, i2, evs1 ++ evs2, by rw [i3, h3, List.append_assoc], ?_⟩
    rw [List.filterMap_append, h4, i4]
    rfl

/-- A run of the main loop whose first message that is not of the other kind
is `m`: the messages up to and including `m` are delivered, no later one is;
the loop is quit; an error `m` becomes the captured error; an end-of-stream
keeps the captured error and forces the engine pipeline to the null state. -/
theorem MainLoop.dispatch_until (pl l : Nat) (pre : List Msg) (m : Msg) (post : List Msg)
    (s : Option Err × World) (hrun : s.2.running l = true)
    (hpre : ∀ x ∈ pre, x.isOther = true) (hm : m.isOther = false) :
    (MainLoop.dispatch pl l (pre ++ m :: post) s).2.running l = false ∧
      ∃ evs, (MainLoop.dispatch pl l (pre ++ m :: post) s).2.trace = s.2.trace ++ evs ∧
        evs.filterMap Event.delivered = pre ++ [m] ∧ Event.loopQuit l ∈ evs ∧
        (m = .eos → (MainLoop.dispatch pl l (pre ++ m :: post) s).1 = s.1 ∧
          Event.blockSetState pl .StateNull ∈ evs) ∧
        (∀ e d, m = .error e d → (MainLoop.dispatch pl l (pre ++ m :: post) s).1 = some e) := by
  induction pre generalizing s with
  | nil =>
    obtain ⟨-, -, evs1, h3, h4, -, h6, h7⟩ := Pipeline.onMessage_spec pl l m s
    have hstop : (Pipeline.onMessage pl l m s).2.running l = false := by
      cases m with
      | other t => simp [Msg.isOther] at hm
      | eos => exact (h6 rfl).2.1
      | error e d => exact (h7 e d rfl).2.1
    have hd : MainLoop.dispatch pl l ([] ++ m :: post) s = Pipeline.onMessage pl l m s := by
      simp only [List.nil_append, MainLoop.dispatch, hstop, Bool.false_eq_true, if_false]
    rw [hd]
    refine ⟨hstop, evs1, h3, h4, ?_, fun h => ⟨(h6 h).1, (h6 h).2.2.1⟩, fun e d h => (h7 e d h).1⟩
    cases m with
    | other t => simp [Msg.isOther] at hm
    | eos => exact (h6 rfl).2.2.2
    | error e d => exact (h7 e d rfl).2.2
  | cons x xs ih =>
    obtain ⟨-, -, evs1, h3, h4, h5, -, -⟩ := Pipeline.onMessage_spec pl l x s
    have hx : x.isOther = true := hpre x (List.mem_cons_self _ _)
    obtain ⟨t, rfl⟩ : ∃ t, x = .other t := by
      cases x with
      | other t => exact ⟨t, rfl⟩
      | eos => simp [Msg.isOther] at hx
      | error e d => simp [Msg.isOther] at hx
    obtain ⟨h6, h7⟩ := h5 t rfl
    have hrun1 : (Pipeline.onMessage pl l (.other t) s).2.running l = true := by
      rw [h7]; exact hrun
    have hd : MainLoop.dispatch pl l ((Msg.other t :: xs) ++ m :: post) s =
        MainLoop.dispatch pl l (xs ++ m :: post) (Pipeline.onMessage pl l (.other t) s) := by
      rw [List.cons_append]
      simp only [MainLoop.dispatch, hrun1, if_true]
    rw [hd]
    obtain ⟨i1, evs2, i3, i4, i5, i6, i7⟩ := ih (Pipeline.onMessage pl l (.other t) s) hrun1
      (fun m hm => hpre m (List.mem_cons_of_mem _ hm))
    refine ⟨i1, evs1 ++ evs2, by rw [i3, h3, List.append_assoc], ?_,
      List.mem_append_right _ i5, fun h => ⟨((i6 h).1).trans h6, List.mem_append_right _ (i6 h).2⟩,
      i7⟩
    rw [List.filterMap_append, h4, i4]
    rfl

/-- Whatever `Pipeline.Start` does before the run loop leaves the descriptors,
the `built` flag and the engine pipeline handle as `Build` left them; and when
it reaches the run loop, the handle it uses is the one of the container. -/
theorem Pipeline.startHooks_same (env : Env) (l pl : Nat) (b : World) :
    SameBuild b (forEach (callHook env .Start) b.p.partials
      (World.log { b with p := { b.p with loop := some l } } (.busAddWatch pl))).2 := by
  obtain ⟨n, -, hfr, -, -⟩ := hookLoop_spec env .Start b.p.partials
    (World.log { b with p := { b.p with loop := some l } } (.busAddWatch pl))
  obtain ⟨k1, -, -, -, k5, k6, -, -, -, -⟩ := hfr
  exact ⟨k1, k6, k5⟩

theorem Pipeline.startSetup_frame (env : Env) (l : Nat) (w : World) :
    (∀ e w1, Pipeline.startSetup env l w = .returned e w1 →
        SameBuild (Pipeline.Build env w).2 w1) ∧
      (∀ pl w1, Pipeline.startSetup env l w = .reached pl w1 →
        SameBuild (Pipeline.Build env w).2 w1 ∧ w1.p.pipeline = some pl) := by
  have key : ∀ (s : Setup), Pipeline.startSetup env l w = s →
      (∀ e w1, s = .returned e w1 → SameBuild (Pipeline.Build env w).2 w1) ∧
      (∀ pl w1, s = .reached pl w1 →
        SameBuild (Pipeline.Build env w).2 w1 ∧ w1.p.pipeline = some pl) := by
    intro s hs
    unfold Pipeline.startSetup at hs
    rcases hB : Pipeline.Build env w with ⟨_ | e0, b⟩
    · rw [hB] at hs
      simp only at hs ⊢
      split at hs
      · subst hs
        exact ⟨fun _ _ h => (by cases h), fun _ _ h => (by cases h)⟩
      · rename_i pl hpl
        have hsb := Pipeline.startHooks_same env l pl b
        split at hs
        · rename_i err w4 h4
          have hw4 : w4 = (forEach (callHook env .Start) b.p.partials
              (World.log { b with p := { b.p with loop := some l } } (.busAddWatch pl))).2 :=
            (congrArg Prod.snd h4).symm
          rw [← hw4] at hsb
          subst hs
          exact ⟨fun _ _ h => (by cases h; exact hsb), fun _ _ h => (by cases h)⟩
        · rename_i w4 h4
          have hw4 : w4 = (forEach (callHook env .Start) b.p.partials
              (World.log { b with p := { b.p with loop := some l } } (.busAddWatch pl))).2 :=
            (congrArg Prod.snd h4).symm
          rw [← hw4] at hsb
          obtain ⟨k1, k6, k5⟩ := hsb
          split at hs
          · subst hs
            exact ⟨fun _ _ h => (by cases h; exact ⟨k1, k6, k5⟩), fun _ _ h => (by cases h)⟩
          · split at hs
            · subst hs
              exact ⟨fun _ _ h => (by cases h; exact ⟨k1, k6, k5⟩), fun _ _ h => (by cases h)⟩
            · subst hs
              refine ⟨fun _ _ h => (by cases h), fun _ _ h => ?_⟩
              cases h
              exact ⟨⟨k1, k6, k5⟩, by simpa [World.log, k5] using hpl⟩
    · rw [hB] at hs
      simp only at hs ⊢
      subst hs
      exact ⟨fun _ _ h => (by cases h; exact ⟨rfl, rfl, rfl⟩), fun _ _ h => (by cases h)⟩
  exact ⟨fun e w1 h => (key _ h).1 e w1 rfl, fun pl w1 h => (key _ h).2 pl w1 rfl⟩

/-- C7: when `Pipeline.Start` reaches the run loop (with engine pipeline `pl`,
in state `w6`), it returns, and what it returns is decided by the messages the
bus delivers.  If the first message that is an error or an end-of-stream is an
error, `Start` returns that error, the loop was quit, and no later message was
delivered.  If it is an end-of-stream, `Start` returns nil, the engine
pipeline was forced to the null state, the loop was quit, and no later message
was delivered.  If there is no such message and the loop is ended from
outside, `Start` returns nil. -/
theorem C7_start_returns_bus_outcome (env : Env) (l : Nat) (w : World) (pl : Nat) (w6 : World)
    (h : Pipeline.startSetup env l w = .reached pl w6) :
    w6.p.pipeline = some pl ∧
      ∃ r, Pipeline.Start env l w = some r ∧ r.2.p = w6.p ∧
        (∀ pre e d post, env.BusMessages w6.trace = pre ++ Msg.error e d :: post →
          (∀ m ∈ pre, m.isOther = true) →
          r.1 = some e ∧ r.2.running l = false ∧
            ∃ evs, r.2.trace = w6.trace ++ Event.loopRun l :: evs ∧ Event.loopQuit l ∈ evs ∧
              evs.filterMap Event.delivered = pre ++ [Msg.error e d]) ∧
        (∀ pre post, env.BusMessages w6.trace = pre ++ Msg.eos :: post →
          (∀ m ∈ pre, m.isOther = true) →
          r.1 = none ∧ r.2.running l = false ∧
            ∃ evs, r.2.trace = w6.trace ++ Event.loopRun l :: evs ∧
              Event.blockSetState pl .StateNull ∈ evs ∧ Event.loopQuit l ∈ evs ∧
              evs.filterMap Event.delivered = pre ++ [Msg.eos]) ∧
        ((∀ m ∈ env.BusMessages w6.trace, m.isOther = true) →
          r.1 = none ∧
            ∃ evs, r.2.trace = w6.trace ++ Event.loopRun l :: evs ∧
              evs.filterMap Event.delivered = env.BusMessages w6.trace) := by
  refine ⟨((Pipeline.startSetup_frame env l w).2 pl w6 h).2,
    MainLoop.RunError env pl l (none, w6), by simp [Pipeline.Start, h], ?_, ?_, ?_, ?_⟩
  · exact (MainLoop.dispatch_frame pl l _ _).2
  · intro pre e d post hmsgs hpre
    unfold MainLoop.RunError
    rw [hmsgs]
    obtain ⟨h1, evs, h2, h3, h4, -, h6⟩ := MainLoop.dispatch_until pl l pre (.error e d) post
      (none, { w6.log (.loopRun l) with running := Function.update w6.running l true })
      (by simp) hpre rfl
    exact ⟨h6 e d rfl, h1, evs, by rw [h2]; simp [World.log], h4, h3⟩
  · intro pre post hmsgs hpre
    unfold MainLoop.RunError
    rw [hmsgs]
    obtain ⟨h1, evs, h2, h3, h4, h5, -⟩ := MainLoop.dispatch_until pl l pre .eos post
      (none, { w6.log (.loopRun l) with running := Function.update w6.running l true })
      (by simp) hpre rfl
    exact ⟨(h5 rfl).1, h1, evs, by rw [h2]; simp [World.log], (h5 rfl).2, h4, h3⟩
  · intro hall
    unfold MainLoop.RunError
    obtain ⟨h1, -, evs, h2, h3⟩ := MainLoop.dispatch_others pl l (env.BusMessages w6.trace)
      (none, { w6.log (.loopRun l) with running := Function.update w6.running l true })
      (by simp) hall
    exact ⟨h1, evs, by rw [h2]; simp [World.log], h3⟩

/-- Witness for C7: on the sample container the bus delivers one state message
and then end-of-stream; `Start` returns nil after forcing the engine pipeline
to the null state and quitting the loop. -/
theorem C7_start_returns_bus_outcome_witness :
    Pipeline.startSetup sampleEnv 9 sampleRegistered = .reached 102 sampleReached ∧
      (Pipeline.Start sampleEnv 9 sampleRegistered).map (fun r => (r.1, r.2.trace.drop 11)) =
        some (none,
          [.busAddWatch 102, .hook .Start 1, .hook .Start 0, .setState 102 .StateReady,
           .setState 102 .StatePlaying, .loopRun 9, .busMessage (.other "state-changed"),
           .busMessage .eos, .blockSetState 102 .StateNull, .loopQuit 9]) ∧
      ∃ r, Pipeline.Start sampleEnv 9 sampleRegistered = some r ∧ r.1 = none ∧
        r.2.running 9 = false :=
  ⟨rfl, by decide,
    (C7_start_returns_bus_outcome sampleEnv 9 sampleRegistered 102 sampleReached rfl).2.imp
      fun _ hr =>
        ⟨hr.1, (hr.2.2.2.1 [.other "state-changed"] [] rfl (by decide)).1,
          (hr.2.2.2.1 [.other "state-changed"] [] rfl (by decide)).2.1⟩⟩

/-- C8: if the internal `Build` fails, `Pipeline.Start` returns that failure in
the state `Build` left, whose history holds neither a bus-watch installation
nor a `Start` hook invocation.  If `Build` succeeds (engine pipeline `pl`) and,
of the registered sub-pipelines `ps ++ q :: rest`, the `Start` hooks of `ps`
succeed and the one of `q` fails with `e`, then `Start` returns `e` unchanged
in the state that hook left, and after `Build` the only outgoing calls were the
bus-watch installation and the `Start` hooks of `ps` and `q`, in order: no
`Start` hook of `rest`, no state transition, no run of the event loop. -/
theorem C8_start_aborts_on_failure (env : Env) (l : Nat) (w : World) :
    (∀ e, (Pipeline.Build env w).1 = some e →
        Pipeline.Start env l w = some (some e, (Pipeline.Build env w).2) ∧
        ∃ evs, (Pipeline.Build env w).2.trace = w.trace ++ evs ∧
          ∀ ev ∈ evs, (∀ pl, ev ≠ Event.busAddWatch pl) ∧ (∀ id, ev ≠ Event.hook .Start id)) ∧
      (∀ pl ps q rest e, (Pipeline.Build env w).1 = none →
        (Pipeline.Build env w).2.p.pipeline = some pl →
        (Pipeline.Build env w).2.p.partials = ps ++ q :: rest →
        (forEach (callHook env .Start) ps (Pipeline.watchInstalled env l pl w)).1 = none →
        (callHook env .Start q
          (forEach (callHook env .Start) ps (Pipeline.watchInstalled env l pl w)).2).1 = some e →
        Pipeline.Start env l w = some (some e, (callHook env .Start q
          (forEach (callHook env .Start) ps (Pipeline.watchInstalled env l pl w)).2).2) ∧
        (callHook env .Start q
          (forEach (callHook env .Start) ps (Pipeline.watchInstalled env l pl w)).2).2.trace =
          (Pipeline.Build env w).2.trace ++
            Event.busAddWatch pl :: (ps ++ [q]).map (Event.hook .Start)) := by
  constructor
  · intro e he
    constructor
    · unfold Pipeline.Start Pipeline.startSetup
      rcases hB : Pipeline.Build env w with ⟨_ | e0, b⟩
      · rw [hB] at he
        simp at he
      · rw [hB] at he
        simp only [Option.some.injEq] at he
        simp [he]
    · have hb : w.p.built = false := by
        cases hbt : w.p.built with
        | false => rfl
        | true =>
          have := (Pipeline.Build_noop_when_built env w hbt)
          rw [this] at he
          simp at he
      obtain ⟨evs, h1, -, h3, -⟩ := Pipeline.Build_log env w hb
      refine ⟨evs, h1, fun ev hev => ⟨fun pl hpl => ?_, fun id hid => ?_⟩⟩
      · have := h3 ev hev
        rw [hpl] at this
        simp [Event.buildPhase] at this
      · have := h3 ev hev
        rw [hid] at this
        simp [Event.buildPhase] at this
  · intro pl ps q rest e hok hpl hps hpre hq
    have hloop := forEach_append_fail (callHook env .Start) ps q rest
      (Pipeline.watchInstalled env l pl w) e hpre hq
    constructor
    · rcases hB : Pipeline.Build env w with ⟨_ | e0, b⟩
      · rw [hB] at hpl hps
        simp only at hpl hps
        have hW : Pipeline.watchInstalled env l pl w =
            World.log { b with p := { b.p with loop := some l } } (.busAddWatch pl) := by
          unfold Pipeline.watchInstalled
          rw [hB]
        rw [hW] at hloop ⊢
        have hset : Pipeline.startSetup env l w = .returned e (callHook env .Start q
            (forEach (callHook env .Start) ps
              (World.log { b with p := { b.p with loop := some l } }
                (.busAddWatch pl))).2).2 := by
          unfold Pipeline.startSetup
          rw [hB]
          simp only
          split
          · rename_i hnone
            rw [show b.p.pipeline = none from hnone] at hpl
            cases hpl
          · rename_i pl1 hsome
            have hpl1 : pl1 = pl := by
              have h := show b.p.pipeline = some pl1 from hsome
              rw [hpl] at h
              exact (Option.some.inj h).symm
            subst hpl1
            split
            · rename_i err w4 h4
              have h4a : forEach (callHook env .Start) (ps ++ q :: rest)
                  (World.log { b with p := { b.p with loop := some l } }
                    (.busAddWatch pl1)) = (some err, w4) := by
                rw [← hps]
                exact h4
              rw [hloop] at h4a
              cases h4a
              rfl
            · rename_i w4 h4
              have h4a : forEach (callHook env .Start) (ps ++ q :: rest)
                  (World.log { b with p := { b.p with loop := some l } }
                    (.busAddWatch pl1)) = (none, w4) := by
                rw [← hps]
                exact h4
              rw [hloop] at h4a
              cases h4a
        unfold Pipeline.Start
        rw [hset]
      · rw [hB] at hok
        simp at hok
    · obtain ⟨n, -, hfr, hnone, -⟩ := hookLoop_spec env .Start ps
        (Pipeline.watchInstalled env l pl w)
      have hn := hnone hpre
      rw [hn, List.take_length] at hfr
      have h1 : (forEach (callHook env .Start) ps (Pipeline.watchInstalled env l pl w)).2.trace =
          (Pipeline.watchInstalled env l pl w).trace ++ ps.map (Event.hook .Start) := hfr.2.2.1
      have h2 := (callHook_frame env .Start q
        (forEach (callHook env .Start) ps (Pipeline.watchInstalled env l pl w)).2).2.2.1
      have h3 : (Pipeline.watchInstalled env l pl w).trace =
          (Pipeline.Build env w).2.trace ++ [Event.busAddWatch pl] := rfl
      rw [h2]
      simp only [World.log]
      rw [h1, h3]
      simp

/-- Witness for C8: `Build` fails on the container whose node names an
unknown factory; and on the container with sub-pipelines 0, 2, 1 the `Start`
hook of 2 refuses after the one of 0 succeeded, so the one of 1 is never
invoked. -/
theorem C8_start_aborts_on_failure_witness :
    Pipeline.Start sampleEnv 9 sampleUnknown =
        some (some (.text "no such factory"), (Pipeline.Build sampleEnv sampleUnknown).2) ∧
      (Pipeline.Start sampleEnv 9 sampleRefusing).map (fun r => (r.1, r.2.trace.drop 13)) =
        some (some (.text "refused"), [.busAddWatch 103, .hook .Start 0, .hook .Start 2]) ∧
      (callHook sampleEnv .Start 2
        (forEach (callHook sampleEnv .Start) [0]
          (Pipeline.watchInstalled sampleEnv 9 103 sampleRefusing)).2).2.trace =
        (Pipeline.Build sampleEnv sampleRefusing).2.trace ++
          Event.busAddWatch 103 :: ([0] ++ [2]).map (Event.hook .Start) :=
  ⟨((C8_start_aborts_on_failure sampleEnv 9 sampleUnknown).1 (.text "no such factory")
      (by decide)).1,
    by decide,
    ((C8_start_aborts_on_failure sampleEnv 9 sampleRefusing).2 103 [0] 2 [1] (.text "refused")
      (by decide) (by decide) (by decide) (by decide) (by decide)).2⟩

/-! ### The engine pipeline handle and the `built` flag -/

/-- `Pipeline.Build` keeps "a built container has its engine pipeline". -/
theorem Pipeline.Build_inv (env : Env) (w : World)
    (h : w.p.built = true → (w.p.pipeline).isSome = true) :
    (Pipeline.Build env w).2.p.built = true →
      ((Pipeline.Build env w).2.p.pipeline).isSome = true := by
  cases hb : w.p.built with
  | true =>
    rw [Pipeline.Build_noop_when_built env w hb]
    exact h
  | false =>
    obtain ⟨evs, -, -, -, -, -, -, -, -, -, -, hiff, -, hpipe, -⟩ := Pipeline.Build_log env w hb
    intro hbt
    obtain ⟨pl, hpl⟩ := hpipe (hiff.mp hbt)
    rw [hpl]
    rfl

/-- C9 (amended): in every state of a container reachable from `NewPipeline`
by `AddElements`, `AddWatch`, `AddPartialPipeline`, `Build`, `Start`, `Finish`
and `Quit` calls, whatever the engine and the hooks answer, `built == true`
implies that the engine pipeline handle is present. -/
theorem C9_built_implies_handle (env : Env) (w : World) (h : Reachable env w) :
    w.p.built = true → (w.p.pipeline).isSome = true := by
  induction h with
  | new heap running trace name =>
    intro hb
    simp [NewPipeline] at hb
  | addElements es w _ ih => exact ih
  | addWatch f w _ ih => exact ih
  | addPartialPipeline pp w _ ih => exact ih
  | build w _ ih => exact Pipeline.Build_inv env w ih
  | start l w r _ hstart ih =>
    have hinv := Pipeline.Build_inv env w ih
    obtain ⟨hret, hreach⟩ := Pipeline.startSetup_frame env l w
    unfold Pipeline.Start at hstart
    split at hstart
    · cases hstart
    · rename_i e w1 hs
      cases hstart
      obtain ⟨-, k2, k3⟩ := hret e w1 hs
      intro hb
      simp only at hb ⊢
      rw [k3]
      exact hinv (by rw [← k2]; exact hb)
    · rename_i pl w1 hs
      cases hstart
      obtain ⟨⟨-, k2, k3⟩, -⟩ := hreach pl w1 hs
      have hp : (MainLoop.RunError env pl l (none, w1)).2.p = w1.p :=
        (MainLoop.dispatch_frame pl l _ _).2
      intro hb
      rw [hp] at hb ⊢
      rw [k3]
      exact hinv (by rw [← k2]; exact hb)
  | finish w _ ih =>
    obtain ⟨-, -, -, -, a5, a6, -⟩ := finishLoop_frame env w.p.partials w
    intro hb
    unfold Pipeline.Finish at hb ⊢
    rw [a5]
    rw [a6] at hb
    exact ih hb
  | quit w w1 _ hq ih =>
    unfold Pipeline.Quit at hq
    split at hq
    · cases hq
    · cases hq
      exact ih

/-- Witness for C9 (amended): the sample container after a successful
`Build`. -/
theorem C9_built_implies_handle_witness :
    (Pipeline.Build sampleEnv sampleRegistered).2.p.built = true ∧
      ((Pipeline.Build sampleEnv sampleRegistered).2.p.pipeline).isSome = true :=
  ⟨by decide,
    C9_built_implies_handle sampleEnv _
      (Reachable.build _ (Reachable.addElements _ _ (Reachable.addPartialPipeline _ _
        (Reachable.addPartialPipeline _ _
          (Reachable.new sampleHeap (fun _ => false) [] "segment-pipeline")))))
      (by decide)⟩

/-- C9, as stated, fails: after `NewPipeline`, `AddElements` of a node whose
factory the engine does not know, and `Build`, the engine pipeline has been
created and is held by the container, but `Build` failed at that node, so
`built` is false. -/
theorem C9_counterexample :
    Reachable sampleEnv (Pipeline.Build sampleEnv sampleUnknown).2 ∧
      (Pipeline.Build sampleEnv sampleUnknown).1 = some (.text "no such factory") ∧
      (Pipeline.Build sampleEnv sampleUnknown).2.p.pipeline = some 100 ∧
      (Pipeline.Build sampleEnv sampleUnknown).2.p.built = false :=
  ⟨Reachable.build _ (Reachable.addElements _ _
      (Reachable.new sampleHeap (fun _ => false) [] "segment-pipeline")),
    by decide, by decide, by decide⟩

/-! ### Linking -/

/-- C3: if either descriptor has no handle, `Link`, `LinkFiltered` and `Unlink`
return the not-built error and leave the state, history of engine calls
included, untouched; if both have handles `a` and `b`, `Link` and
`LinkFiltered` make exactly one engine call and return its answer, and `Unlink`
makes exactly one engine call and returns nil. -/
theorem C3_link_requires_both_built (env : Env) (e other filter : Nat) (w : World) :
    (((w.heap e).el = none ∨ (w.heap other).el = none) →
        Element.Link env e other w = (some errNotBuilt, w) ∧
        Element.LinkFiltered env e other filter w = (some errNotBuilt, w) ∧
        Element.Unlink e other w = (some errNotBuilt, w)) ∧
      (∀ a b, (w.heap e).el = some a → (w.heap other).el = some b →
        Element.Link env e other w = (env.Link w.trace a b, w.log (.link a b)) ∧
        Element.LinkFiltered env e other filter w =
          (env.LinkFiltered w.trace a b filter, w.log (.linkFiltered a b filter)) ∧
        Element.Unlink e other w = (none, w.log (.unlink a b))) := by
  constructor
  · rintro (h | h)
    · simp [Element.Link, Element.LinkFiltered, Element.Unlink, h]
    · cases he : (w.heap e).el <;>
        simp [Element.Link, Element.LinkFiltered, Element.Unlink, h, he]
  · intro a b ha hb
    simp [Element.Link, Element.LinkFiltered, Element.Unlink, ha, hb]

/-- Witness for C3: an un-built source against an un-built decoder, and the
same pair after both were built. -/
theorem C3_link_requires_both_built_witness :
    Element.Link sampleEnv 0 1 sampleWorld = (some errNotBuilt, sampleWorld) ∧
      Element.Unlink 0 1 (Element.Build sampleEnv 1 (Element.Build sampleEnv 0 sampleWorld).2).2 =
        (none, (Element.Build sampleEnv 1 (Element.Build sampleEnv 0 sampleWorld).2).2.log
          (.unlink 100 103)) :=
  ⟨((C3_link_requires_both_built sampleEnv 0 1 0 sampleWorld).1 (Or.inl rfl)).1,
   ((C3_link_requires_both_built sampleEnv 0 1 0
      (Element.Build sampleEnv 1 (Element.Build sampleEnv 0 sampleWorld).2).2).2 100 103
      (by decide) (by decide)).2.2⟩

end Cctver
